import Mathlib

/-!
Verification development for the `canvas-plugins` LLM client module
(`canvas_sdk/clients/llms`).

The repository provides, per LLM vendor, a payload builder (`to_dict`) that
turns stored conversation turns and queued file references into the vendor's
request body, and a response normalizer (`request`) that maps the HTTP
outcome to a unified `LlmResponse`.  A shared base class (`LlmBase`) holds
the turn store, the file-reference queue, the retry driver
(`attempt_requests`) and the attachment resolver
(`base64_encoded_content_of`).

The source tree contains `llm_anthropic.py` and `llm_google.py` together
with the test suite; `llm_base.py`, `llm_openai.py` and the small structure
classes are absent and are modelled from the specification (their doc
comments say so), with behavior pinned by the tests that are present.

Python values produced by `json.loads`, and the exceptions the Python code
can raise, are modelled explicitly so that the error behavior of each
normalizer is faithful: only `requests.exceptions.RequestException` is
caught by the vendor clients, so JSON decoding errors, attribute/index
errors on unexpected body shapes, and `ValueError` from `HTTPStatus(code)`
propagate.
-/

/-- Model of a Python value as produced by `json.loads` (plus `None`).
Numbers are modelled as integers: the module only manipulates token counts
and strings, and no claim involves floating point. -/
inductive PyVal where
  | nil
  | bool (b : Bool)
  | num (n : Int)
  | str (s : String)
  | arr (xs : List PyVal)
  | obj (kvs : List (String × PyVal))

mutual

/-- Decidable equality on `PyVal` (written by hand: the nested lists defeat
the automatic derivation on this toolchain). -/
def PyVal.decEq : (a b : PyVal) → Decidable (a = b)
  | .nil, .nil => isTrue rfl
  | .bool a, .bool b =>
      match Bool.decEq a b with
      | isTrue h => isTrue (by rw [h])
      | isFalse h => isFalse (fun hh => by cases hh; exact h rfl)
  | .num a, .num b =>
      match Int.decEq a b with
      | isTrue h => isTrue (by rw [h])
      | isFalse h => isFalse (fun hh => by cases hh; exact h rfl)
  | .str a, .str b =>
      match String.decEq a b with
      | isTrue h => isTrue (by rw [h])
      | isFalse h => isFalse (fun hh => by cases hh; exact h rfl)
  | .arr xs, .arr ys =>
      match PyVal.decEqList xs ys with
      | isTrue h => isTrue (by rw [h])
      | isFalse h => isFalse (fun hh => by cases hh; exact h rfl)
  | .obj xs, .obj ys =>
      match PyVal.decEqKV xs ys with
      | isTrue h => isTrue (by rw [h])
      | isFalse h => isFalse (fun hh => by cases hh; exact h rfl)
  | .nil, .bool _ | .nil, .num _ | .nil, .str _ | .nil, .arr _ | .nil, .obj _
  | .bool _, .nil | .bool _, .num _ | .bool _, .str _ | .bool _, .arr _ | .bool _, .obj _
  | .num _, .nil | .num _, .bool _ | .num _, .str _ | .num _, .arr _ | .num _, .obj _
  | .str _, .nil | .str _, .bool _ | .str _, .num _ | .str _, .arr _ | .str _, .obj _
  | .arr _, .nil | .arr _, .bool _ | .arr _, .num _ | .arr _, .str _ | .arr _, .obj _
  | .obj _, .nil | .obj _, .bool _ | .obj _, .num _ | .obj _, .str _ | .obj _, .arr _ =>
      isFalse (fun h => by cases h)

/-- Decidable equality on lists of `PyVal`. -/
def PyVal.decEqList : (xs ys : List PyVal) → Decidable (xs = ys)
  | [], [] => isTrue rfl
  | [], _ :: _ => isFalse (fun h => by cases h)
  | _ :: _, [] => isFalse (fun h => by cases h)
  | x :: xs, y :: ys =>
      match PyVal.decEq x y with
      | isFalse h => isFalse (fun hh => by cases hh; exact h rfl)
      | isTrue h₁ =>
          match PyVal.decEqList xs ys with
          | isTrue h₂ => isTrue (by rw [h₁, h₂])
          | isFalse h => isFalse (fun hh => by cases hh; exact h rfl)

/-- Decidable equality on key-value lists of `PyVal`. -/
def PyVal.decEqKV : (xs ys : List (String × PyVal)) → Decidable (xs = ys)
  | [], [] => isTrue rfl
  | [], _ :: _ => isFalse (fun h => by cases h)
  | _ :: _, [] => isFalse (fun h => by cases h)
  | (k₁, v₁) :: xs, (k₂, v₂) :: ys =>
      match String.decEq k₁ k₂ with
      | isFalse h => isFalse (fun hh => by cases hh; exact h rfl)
      | isTrue hk =>
          match PyVal.decEq v₁ v₂ with
          | isFalse h => isFalse (fun hh => by cases hh; exact h rfl)
          | isTrue hv =>
              match PyVal.decEqKV xs ys with
              | isTrue ht => isTrue (by rw [hk, hv, ht])
              | isFalse h => isFalse (fun hh => by cases hh; exact h rfl)

end

instance : DecidableEq PyVal := PyVal.decEq

/-- The Python exceptions the modelled code can raise (everything except
`RequestException`, which the vendor clients catch). -/
inductive PyExc where
  | attributeErr
  | indexErr
  | typeErr
  | keyErr
  | valueErr
  | jsonDecodeErr
  | binasciiErr
  | unicodeDecodeErr
  deriving DecidableEq

/-- First binding of a key in a Python dict modelled as an association list
(`json.loads` never produces duplicate keys). -/
def lookupKey : List (String × PyVal) → String → Option PyVal
  | [], _ => Option.none
  | (k, v) :: rest, key => if k = key then Option.some v else lookupKey rest key

/-- Python truthiness of a value (`bool(v)`). -/
def truthy : PyVal → Bool
  | .nil => false
  | .bool b => b
  | .num n => n != 0
  | .str s => s != ""
  | .arr xs => !xs.isEmpty
  | .obj kvs => !kvs.isEmpty

/-- Python `v.get(key, default)`: only dicts have `.get`; anything else
raises `AttributeError`. -/
def pyGetD (v : PyVal) (key : String) (d : PyVal) : Except PyExc PyVal :=
  match v with
  | .obj kvs => .ok ((lookupKey kvs key).getD d)
  | _ => .error .attributeErr

/-- Python `v.get(key)` (default `None`). -/
def pyGet1 (v : PyVal) (key : String) : Except PyExc PyVal :=
  pyGetD v key .nil

/-- Python `v[i]` for a non-negative index: list indexing with
`IndexError` out of range, string indexing yielding a one-character
string, `TypeError` on non-subscriptable values. -/
def pyIndex (v : PyVal) (i : Nat) : Except PyExc PyVal :=
  match v with
  | .arr xs =>
      match xs.get? i with
      | Option.some x => .ok x
      | Option.none => .error .indexErr
  | .str s =>
      match s.toList.get? i with
      | Option.some c => .ok (.str (String.mk [c]))
      | Option.none => .error .indexErr
  | _ => .error .typeErr

/-- Python `v or 0` as used for token counts: the value if truthy, else
the integer 0. -/
def orZero (v : PyVal) : PyVal :=
  if truthy v then v else .num 0

/-- Coercion of a Python value to an integer for `+`, reflecting that
`bool` is an `int` subclass. -/
def intCoe : PyVal → Option Int
  | .num n => Option.some n
  | .bool b => Option.some (if b then 1 else 0)
  | _ => Option.none

/-- Python `a + b` on the value shapes that occur here: numeric addition
(with bools coerced), string/list concatenation, `TypeError` otherwise. -/
def pyAdd (a b : PyVal) : Except PyExc PyVal :=
  match intCoe a, intCoe b with
  | Option.some x, Option.some y => .ok (.num (x + y))
  | _, _ =>
    match a, b with
    | .str x, .str y => .ok (.str (x ++ y))
    | .arr x, .arr y => .ok (.arr (x ++ y))
    | _, _ => .error .typeErr

/-- The members of Python's `http.HTTPStatus` enumeration.
`HTTPStatus(code)` raises `ValueError` for any other integer. -/
def validHTTPStatus (code : Nat) : Bool :=
  code ∈ [100, 101, 102, 103,
    200, 201, 202, 203, 204, 205, 206, 207, 208, 226,
    300, 301, 302, 303, 304, 305, 307, 308,
    400, 401, 402, 403, 404, 405, 406, 407, 408, 409, 410, 411, 412, 413,
    414, 415, 416, 417, 418, 421, 422, 423, 424, 425, 426, 428, 429, 431, 451,
    500, 501, 502, 503, 504, 505, 506, 507, 508, 510, 511]

/-- Python `HTTPStatus(code)`: the code itself when it is a member of the
enumeration, `ValueError` otherwise. -/
def toHTTPStatus (code : Nat) : Except PyExc Nat :=
  if validHTTPStatus code then .ok code else .error .valueErr

/-- A conversation role.  The store only ever holds these three roles:
`LlmBase.add_prompt` silently drops any other role string (see
`addPromptStr`), so the `roles[prompt.role]` dict lookups in the payload
builders cannot raise `KeyError` on store-produced states. -/
inductive LlmRole where
  | system
  | user
  | model
  deriving DecidableEq

/-- One stored conversation turn (`LlmTurn`): a role and an ordered list of
text lines. -/
structure LlmTurn where
  role : LlmRole
  text : List String
  deriving DecidableEq

/-- The kind of a queued file reference (`FileType`); `other` stands for
any value outside the recognized enumeration. -/
inductive FileType where
  | pdf
  | image
  | text
  | other
  deriving DecidableEq

/-- A queued file reference (`LlmFileUrl`). -/
structure LlmFileUrl where
  url : String
  type : FileType
  deriving DecidableEq

/-- A resolved attachment (`FileContent`): mime type, the base64-encoded
content (Python holds it as ASCII bytes; modelled as the base64 text
itself), and the byte size reported by the resolver. -/
structure FileContent where
  mime_type : String
  content : String
  size : Nat
  deriving DecidableEq

/-- Token counts of a unified response (`LlmTokens`).  The fields are
Python values: the code assigns whatever `usage.get(...) or 0` yields. -/
structure LlmTokens where
  prompt : PyVal
  generated : PyVal
  deriving DecidableEq

/-- The unified per-attempt result (`LlmResponse`): HTTP status code,
response text (a Python value: the success path assigns whatever the body
held), and token counts. -/
structure LlmResponse where
  code : Nat
  response : PyVal
  tokens : LlmTokens
  deriving DecidableEq

/-- Modelled from the spec: `LlmSettings` (the structures package is absent
from src).  Per-client configuration: API key and model identifier; the
tests pin the base request mapping to the single `model` field. -/
structure LlmSettings where
  api_key : String
  model : String
  deriving DecidableEq

/-- Modelled from the spec: `LlmSettings.to_dict` — the vendor-neutral base
request mapping, pinned by the expected payloads in the tests to
`{"model": <model>}`. -/
def settingsToDict (s : LlmSettings) : List (String × PyVal) :=
  [("model", .str s.model)]

/-- The mutable state of a client (`LlmBase`): the ordered turn store and
the queued file references. -/
structure LlmState where
  prompts : List LlmTurn
  file_urls : List LlmFileUrl
  deriving DecidableEq

/-!
### Models of the Python standard-library pieces the module uses

`base64.standard_b64decode(...).decode("utf-8")` appears on the Anthropic
TEXT-attachment path; the resolver (`base64_encoded_content_of`, absent
from src) produces its content with `base64.b64encode`.  Both are modelled
at the byte level (bytes are lists of naturals below 256).
-/

/-- Value of a standard-alphabet base64 character. -/
def b64Val (c : Char) : Option Nat :=
  if 'A' ≤ c ∧ c ≤ 'Z' then Option.some (c.toNat - 'A'.toNat)
  else if 'a' ≤ c ∧ c ≤ 'z' then Option.some (c.toNat - 'a'.toNat + 26)
  else if '0' ≤ c ∧ c ≤ '9' then Option.some (c.toNat - '0'.toNat + 52)
  else if c = '+' then Option.some 62
  else if c = '/' then Option.some 63
  else Option.none

/-- Characters `base64.b64decode` keeps in non-validating mode: the
standard alphabet plus padding (anything else is discarded before the
padding check). -/
def b64Keep (c : Char) : Bool :=
  (b64Val c).isSome || c = '='

/-- Value of one base64 character, `binascii.Error` outside the alphabet
(padding only allowed where the caller patterns admit it). -/
def b64ValE (c : Char) : Except PyExc Nat :=
  match b64Val c with
  | Option.some v => .ok v
  | Option.none => .error .binasciiErr

/-- Decode base64 quads into bytes; padding is admitted only at the end. -/
def b64Quads : List Char → Except PyExc (List Nat)
  | [] => .ok []
  | [a, b, '=', '='] => do
      let va ← b64ValE a
      let vb ← b64ValE b
      .ok [va * 4 + vb / 16]
  | [a, b, c, '='] => do
      let va ← b64ValE a
      let vb ← b64ValE b
      let vc ← b64ValE c
      .ok [va * 4 + vb / 16, (vb % 16) * 16 + vc / 4]
  | a :: b :: c :: d :: rest => do
      let va ← b64ValE a
      let vb ← b64ValE b
      let vc ← b64ValE c
      let vd ← b64ValE d
      let more ← b64Quads rest
      .ok ((va * 4 + vb / 16) :: ((vb % 16) * 16 + vc / 4) :: ((vc % 4) * 64 + vd) :: more)
  | _ => .error .binasciiErr

/-- Model of `base64.standard_b64decode` on the (ASCII) content string:
discard non-alphabet characters, then decode, raising `binascii.Error` on
bad padding. -/
def b64DecodeBytes (s : String) : Except PyExc (List Nat) :=
  b64Quads (s.toList.filter b64Keep)

/-- Character of a 6-bit value (standard base64 alphabet). -/
def b64Chr (n : Nat) : Char :=
  if n < 26 then Char.ofNat ('A'.toNat + n)
  else if n < 52 then Char.ofNat ('a'.toNat + (n - 26))
  else if n < 62 then Char.ofNat ('0'.toNat + (n - 52))
  else if n = 62 then '+'
  else '/'

/-- Model of `base64.b64encode` on raw bytes, yielding the base64 text. -/
def b64EncodeBytes : List Nat → List Char
  | [] => []
  | [x] => [b64Chr (x / 4), b64Chr (x % 4 * 16), '=', '=']
  | [x, y] => [b64Chr (x / 4), b64Chr (x % 4 * 16 + y / 16), b64Chr (y % 16 * 4), '=']
  | x :: y :: z :: rest =>
      b64Chr (x / 4) :: b64Chr (x % 4 * 16 + y / 16) ::
      b64Chr (y % 16 * 4 + z / 64) :: b64Chr (z % 64) :: b64EncodeBytes rest

/-- Whether a byte is a UTF-8 continuation byte. -/
def utf8Cont (b : Nat) : Bool :=
  0x80 ≤ b && b ≤ 0xBF

/-- Model of `bytes.decode("utf-8")`: strict UTF-8 decoding with the usual
overlong/surrogate/range checks; `UnicodeDecodeError` on anything else. -/
def utf8Chars : List Nat → Except PyExc (List Char)
  | [] => .ok []
  | b :: rest =>
      if b < 0x80 then do
        let cs ← utf8Chars rest
        .ok (Char.ofNat b :: cs)
      else if 0xC2 ≤ b ∧ b ≤ 0xDF then
        match rest with
        | c₁ :: rest' =>
            if utf8Cont c₁ then do
              let cs ← utf8Chars rest'
              .ok (Char.ofNat ((b - 0xC0) * 64 + (c₁ - 0x80)) :: cs)
            else .error .unicodeDecodeErr
        | [] => .error .unicodeDecodeErr
      else if 0xE0 ≤ b ∧ b ≤ 0xEF then
        match rest with
        | c₁ :: c₂ :: rest' =>
            if utf8Cont c₁ && utf8Cont c₂
                && !(b = 0xE0 && c₁ < 0xA0) && !(b = 0xED && 0xA0 ≤ c₁) then do
              let cs ← utf8Chars rest'
              .ok (Char.ofNat ((b - 0xE0) * 4096 + (c₁ - 0x80) * 64 + (c₂ - 0x80)) :: cs)
            else .error .unicodeDecodeErr
        | _ => .error .unicodeDecodeErr
      else if 0xF0 ≤ b ∧ b ≤ 0xF4 then
        match rest with
        | c₁ :: c₂ :: c₃ :: rest' =>
            if utf8Cont c₁ && utf8Cont c₂ && utf8Cont c₃
                && !(b = 0xF0 && c₁ < 0x90) && !(b = 0xF4 && 0x90 ≤ c₁) then do
              let cs ← utf8Chars rest'
              .ok (Char.ofNat
                ((b - 0xF0) * 262144 + (c₁ - 0x80) * 4096 + (c₂ - 0x80) * 64 + (c₃ - 0x80)) :: cs)
            else .error .unicodeDecodeErr
        | _ => .error .unicodeDecodeErr
      else .error .unicodeDecodeErr

/-- Model of `bytes.decode("utf-8")` as a string. -/
def utf8Decode (bs : List Nat) : Except PyExc String := do
  let cs ← utf8Chars bs
  .ok (String.mk cs)

/-- Composition `base64.standard_b64decode(content).decode("utf-8")`
used by `LlmAnthropic.to_dict` on TEXT attachments. -/
def b64DecodeUtf8 (s : String) : Except PyExc String := do
  let bs ← b64DecodeBytes s
  utf8Decode bs

/-!
### Payload builders

All three vendors walk `self.prompts` with the same loop shape; the loop
body appends the turn's content part to the last message entry when the
wire role matches, and opens a new entry otherwise.  The loop is embedded
as a `List.foldl` over the turn list (`buildEntries`), parameterized by
the vendor's wire-role map and part constructor.
-/

/-- One message entry of a vendor payload: the wire role and the ordered
content parts (`{"role": ..., "content"/"parts": [...]}`). -/
structure MsgEntry where
  role : String
  parts : List PyVal
  deriving DecidableEq

/-- Loop body shared by the vendor `to_dict` methods: merge into the last
entry on equal wire role, else append a fresh entry. -/
def buildStep (wr : LlmRole → String) (mk : LlmTurn → PyVal)
    (msgs : List MsgEntry) (t : LlmTurn) : List MsgEntry :=
  match msgs.getLast? with
  | Option.some e =>
      if e.role = wr t.role then
        msgs.dropLast ++ [⟨e.role, e.parts ++ [mk t]⟩]
      else
        msgs ++ [⟨wr t.role, [mk t]⟩]
  | Option.none => [⟨wr t.role, [mk t]⟩]

/-- The message list a vendor `to_dict` builds from the stored turns. -/
def buildEntries (wr : LlmRole → String) (mk : LlmTurn → PyVal)
    (ts : List LlmTurn) : List MsgEntry :=
  ts.foldl (buildStep wr mk) []

/-- Anthropic wire roles (`LlmAnthropic.to_dict`): system and user map to
`"user"`, model maps to `"assistant"`. -/
def anthRoleOf : LlmRole → String
  | .system => "user"
  | .user => "user"
  | .model => "assistant"

/-- Google wire roles (`LlmGoogle.to_dict`): system and user map to
`"user"`, model maps to `"model"`. -/
def googRoleOf : LlmRole → String
  | .system => "user"
  | .user => "user"
  | .model => "model"

/-- Anthropic text part for one turn:
`{"type": "text", "text": "\n".join(prompt.text)}`. -/
def anthPart (t : LlmTurn) : PyVal :=
  .obj [("type", .str "text"), ("text", .str (String.intercalate "\n" t.text))]

/-- Google text part for one turn: `{"text": "\n".join(prompt.text)}`. -/
def googPart (t : LlmTurn) : PyVal :=
  .obj [("text", .str (String.intercalate "\n" t.text))]

/-- Whether the built message list is non-empty with final wire role
`"user"` — the second half of the attachment-embedding gate
(`messages and messages[-1]["role"] == roles[self.ROLE_USER]`). -/
def lastRoleIsUser (msgs : List MsgEntry) : Bool :=
  match msgs.getLast? with
  | Option.some e => e.role = "user"
  | Option.none => false

/-- Append the embedded attachment parts to the final message entry
(`messages[-1]["content"].append(item)` / `contents[-1]["parts"].append`). -/
def appendToLast : List MsgEntry → List PyVal → List MsgEntry
  | [], _ => []
  | [e], items => [⟨e.role, e.parts ++ items⟩]
  | e :: e' :: rest, items => e :: appendToLast (e' :: rest) items

/-- Anthropic attachment drain (`LlmAnthropic.to_dict`, the `while` loop):
PDF and IMAGE references become source-by-url blocks, TEXT references are
fetched through the resolver and embedded as decoded plain text, anything
else produces no block; the queue is consumed one item at a time and the
base64/UTF-8 decoding of a TEXT attachment can raise. -/
def anthItems (resolve : LlmFileUrl → FileContent) :
    List LlmFileUrl → Except PyExc (List PyVal)
  | [] => .ok []
  | f :: rest =>
      match f.type with
      | .pdf => do
          let more ← anthItems resolve rest
          .ok (.obj [("type", .str "document"),
            ("source", .obj [("type", .str "url"), ("url", .str f.url)])] :: more)
      | .image => do
          let more ← anthItems resolve rest
          .ok (.obj [("type", .str "image"),
            ("source", .obj [("type", .str "url"), ("url", .str f.url)])] :: more)
      | .text => do
          let fc := resolve f
          let data ← b64DecodeUtf8 fc.content
          let more ← anthItems resolve rest
          .ok (.obj [("type", .str "document"),
            ("source", .obj [("type", .str "text"), ("media_type", .str "text/plain"),
              ("data", .str data)])] :: more)
      | .other => anthItems resolve rest

/-- Serialize an Anthropic message entry. -/
def anthMsgVal (e : MsgEntry) : PyVal :=
  .obj [("role", .str e.role), ("content", .arr e.parts)]

/-- Model of `LlmAnthropic.to_dict`: build the merged message list, embed queued
attachments into the final entry when the gate holds (non-empty queue and
final wire role `"user"`), and merge with the settings mapping.  Returns
the payload together with the file queue left behind; a raise inside the
drain propagates (only `RequestException` is ever caught, elsewhere). -/
def anthropicToDict (resolve : LlmFileUrl → FileContent) (s : LlmSettings)
    (st : LlmState) : Except PyExc (PyVal × List LlmFileUrl) :=
  let msgs := buildEntries anthRoleOf anthPart st.prompts
  if !st.file_urls.isEmpty && lastRoleIsUser msgs then do
    let items ← anthItems resolve st.file_urls
    .ok (.obj (settingsToDict s ++
      [("messages", .arr ((appendToLast msgs items).map anthMsgVal))]), [])
  else
    .ok (.obj (settingsToDict s ++ [("messages", .arr (msgs.map anthMsgVal))]),
      st.file_urls)

/-- The 10 MiB cumulative attachment budget of `LlmGoogle.to_dict`. -/
def googMaxSize : Nat := 10 * 1024 * 1024

/-- One Google inline-data part for an embedded attachment.  Python holds
`file_content.content` as base64-encoded ASCII bytes and embeds
`content.decode("utf-8")`; content is modelled as that text directly. -/
def googInline (fc : FileContent) : PyVal :=
  .obj [("inline_data", .obj [("mime_type", .str fc.mime_type),
    ("data", .str fc.content)])]

/-- Google attachment drain (`LlmGoogle.to_dict`, the `while` loop): every
queued reference is popped and fetched; it is embedded exactly when the
resolver reports a non-zero size and the running total stays strictly
under the budget after adding it.  Returns the embedded parts together
with the list of references that were fetched (one resolver call per
popped reference). -/
def googDrain (resolve : LlmFileUrl → FileContent) (sizeSum : Nat) :
    List LlmFileUrl → List PyVal × List LlmFileUrl
  | [] => ([], [])
  | f :: rest =>
      let fc := resolve f
      if fc.size > 0 ∧ sizeSum + fc.size < googMaxSize then
        let (ps, log) := googDrain resolve (sizeSum + fc.size) rest
        (googInline fc :: ps, f :: log)
      else
        let (ps, log) := googDrain resolve sizeSum rest
        (ps, f :: log)

/-- Serialize a Google content entry. -/
def googMsgVal (e : MsgEntry) : PyVal :=
  .obj [("role", .str e.role), ("parts", .arr e.parts)]

/-- Model of `LlmGoogle.to_dict`: merged content list, then the budgeted attachment
drain when the gate holds; total (no exception can be raised on this
path).  Returns the payload and the file queue left behind. -/
def googleToDict (resolve : LlmFileUrl → FileContent) (s : LlmSettings)
    (st : LlmState) : PyVal × List LlmFileUrl :=
  let msgs := buildEntries googRoleOf googPart st.prompts
  if !st.file_urls.isEmpty && lastRoleIsUser msgs then
    let (items, _) := googDrain resolve 0 st.file_urls
    (.obj (settingsToDict s ++
      [("contents", .arr ((appendToLast msgs items).map googMsgVal))]), [])
  else
    (.obj (settingsToDict s ++ [("contents", .arr (msgs.map googMsgVal))]),
      st.file_urls)

/-- Modelled from the spec: the per-turn entry of `LlmOpenai.to_dict`
(`llm_openai.py` is absent from src).  The expected payloads in
`test_llm_openai.py::test_to_dict` pin the behavior: every user turn
yields its own `{"role": "user", "content": [{"type": "input_text", ...}]}`
entry and every model turn its own `{"role": "assistant",
"content": [{"type": "output_text", ...}]}` entry — contiguous turns are
not merged — while system turns are diverted to the `instructions` field. -/
def oaiEntryOf (t : LlmTurn) : Option MsgEntry :=
  match t.role with
  | .system => Option.none
  | .user => Option.some ⟨"user",
      [.obj [("type", .str "input_text"), ("text", .str (String.intercalate "\n" t.text))]]⟩
  | .model => Option.some ⟨"assistant",
      [.obj [("type", .str "output_text"), ("text", .str (String.intercalate "\n" t.text))]]⟩

/-- Modelled from the spec: the turn walk of `LlmOpenai.to_dict` — system
turns overwrite the instructions string (last one wins), other turns each
append one input entry. -/
def oaiStep (acc : String × List MsgEntry) (t : LlmTurn) : String × List MsgEntry :=
  match t.role with
  | .system => (String.intercalate "\n" t.text, acc.2)
  | _ =>
      match oaiEntryOf t with
      | Option.some e => (acc.1, acc.2 ++ [e])
      | Option.none => acc

/-- Modelled from the spec: instructions and input list built by
`LlmOpenai.to_dict` from the stored turns. -/
def oaiBuild (ts : List LlmTurn) : String × List MsgEntry :=
  ts.foldl oaiStep ("", [])

/-- Modelled from the spec: the OpenAI attachment drain — PDF references
become `input_file` blocks, IMAGE references `input_image` blocks, and
everything else (TEXT included) is dropped without a fetch; the queue is
fully consumed. -/
def oaiItems : List LlmFileUrl → List PyVal
  | [] => []
  | f :: rest =>
      match f.type with
      | .pdf => .obj [("type", .str "input_file"), ("file_url", .str f.url)] :: oaiItems rest
      | .image => .obj [("type", .str "input_image"), ("image_url", .str f.url)] :: oaiItems rest
      | _ => oaiItems rest

/-- Serialize an OpenAI input entry. -/
def oaiMsgVal (e : MsgEntry) : PyVal :=
  .obj [("role", .str e.role), ("content", .arr e.parts)]

/-- Modelled from the spec: `LlmOpenai.to_dict` — settings mapping plus the
extracted instructions (empty string when no system turn was stored) and
the per-turn input list, with the same attachment gate as the other
vendors; total.  Returns the payload and the file queue left behind. -/
def openaiToDict (s : LlmSettings) (st : LlmState) : PyVal × List LlmFileUrl :=
  let (ins, input) := oaiBuild st.prompts
  if !st.file_urls.isEmpty && lastRoleIsUser input then
    (.obj (settingsToDict s ++ [("instructions", .str ins),
      ("input", .arr ((appendToLast input (oaiItems st.file_urls)).map oaiMsgVal))]), [])
  else
    (.obj (settingsToDict s ++ [("instructions", .str ins),
      ("input", .arr (input.map oaiMsgVal))]), st.file_urls)

/-!
### Transport outcomes and response normalizers

`request()` builds the URL/headers/payload and performs one blocking POST.
The URL, header and `json.dumps` plumbing carries no logic relevant to the
claims; what is embedded is the normalization of the HTTP outcome
(lines 93–117 of `llm_anthropic.py`, 79–109 of `llm_google.py`): the
`try/except` around the POST and the construction of the final
`LlmResponse`, including `HTTPStatus(code)` which raises `ValueError`
outside the enumeration.
-/

/-- A non-exceptional HTTP reply: status, raw body text, and the outcome
of `json.loads` on that text (`none` when the text is not valid JSON). -/
structure HttpReply where
  status_code : Nat
  text : String
  jsonLoads : Option PyVal
  deriving DecidableEq

/-- Outcome of the blocking POST: a reply, or a `RequestException` with
its description and optionally an embedded HTTP response. -/
inductive HttpOutcome where
  | reply (r : HttpReply)
  | exc (desc : String) (response : Option HttpReply)
  deriving DecidableEq

/-- The `LlmResponse` construction shared by the non-200 and exception paths:
raw text, zero tokens, `HTTPStatus(code)` validation. -/
def plainResponse (code : Nat) (text : String) : Except PyExc LlmResponse := do
  let c ← toHTTPStatus code
  .ok ⟨c, .str text, ⟨.num 0, .num 0⟩⟩

/-- Model of `LlmAnthropic.request` response handling: on 200, parse the body and
extract `content[0].text` and the usage counts; on any other status keep
the raw body; exceptions carrying an embedded response adopt its status
and text, others map to 400 with a synthesized message.  Uncaught Python
errors (JSON decoding, attribute/index errors on unexpected shapes,
`ValueError` from `HTTPStatus`) surface as `.error`. -/
def anthropicRequest (o : HttpOutcome) : Except PyExc LlmResponse :=
  match o with
  | .reply r =>
      if r.status_code = 200 then
        match r.jsonLoads with
        | Option.none => .error .jsonDecodeErr
        | Option.some content => do
            let blocks ← pyGetD content "content" (.arr [.obj []])
            let first ← pyIndex blocks 0
            let text ← pyGetD first "text" (.str "")
            let usage ← pyGetD content "usage" (.obj [])
            let p ← pyGet1 usage "input_tokens"
            let g ← pyGet1 usage "output_tokens"
            let c ← toHTTPStatus r.status_code
            .ok ⟨c, text, ⟨orZero p, orZero g⟩⟩
      else plainResponse r.status_code r.text
  | .exc desc Option.none => plainResponse 400 ("Request failed: " ++ desc)
  | .exc _ (Option.some er) => plainResponse er.status_code er.text

/-- Model of `LlmGoogle.request` response handling: on 200 extract
`candidates[0].content.parts[0].text` and the usage metadata, adding the
thinking-token count to the generated count; other paths as for
Anthropic. -/
def googleRequest (o : HttpOutcome) : Except PyExc LlmResponse :=
  match o with
  | .reply r =>
      if r.status_code = 200 then
        match r.jsonLoads with
        | Option.none => .error .jsonDecodeErr
        | Option.some content => do
            let cands ← pyGetD content "candidates" (.arr [.obj []])
            let c0 ← pyIndex cands 0
            let inner ← pyGetD c0 "content" (.obj [])
            let parts ← pyGetD inner "parts" (.arr [.obj []])
            let p0 ← pyIndex parts 0
            let text ← pyGetD p0 "text" (.str "")
            let usage ← pyGetD content "usageMetadata" (.obj [])
            let p ← pyGet1 usage "promptTokenCount"
            let cand ← pyGet1 usage "candidatesTokenCount"
            let th ← pyGet1 usage "thoughtsTokenCount"
            let g ← pyAdd (orZero cand) (orZero th)
            let c ← toHTTPStatus r.status_code
            .ok ⟨c, text, ⟨orZero p, g⟩⟩
      else plainResponse r.status_code r.text
  | .exc desc Option.none => plainResponse 400 ("Request failed: " ++ desc)
  | .exc _ (Option.some er) => plainResponse er.status_code er.text

/-- Modelled from the spec: concatenation of the text fragments of one
message entry of the OpenAI success body, in list order. -/
def oaiCollectFrags (acc : PyVal) : List PyVal → Except PyExc PyVal
  | [] => .ok acc
  | f :: rest => do
      let t ← pyGetD f "text" (.str "")
      let acc' ← pyAdd acc t
      oaiCollectFrags acc' rest

/-- Modelled from the spec: the success-body walk of `LlmOpenai.request`
(`llm_openai.py` is absent from src) — only output entries whose `type` is
`"message"` contribute, and their text fragments are concatenated in list
order with no separator, starting from the empty string (pinned by
`test_llm_openai.py::test_request`, expected `"part1part2"`). -/
def oaiCollect (acc : PyVal) : List PyVal → Except PyExc PyVal
  | [] => .ok acc
  | entry :: rest => do
      let kind ← pyGet1 entry "type"
      if kind = .str "message" then
        let frags ← pyGetD entry "content" (.arr [])
        match frags with
        | .arr fs => do
            let acc' ← oaiCollectFrags acc fs
            oaiCollect acc' rest
        | _ => .error .typeErr
      else oaiCollect acc rest

/-- Modelled from the spec: `LlmOpenai.request` response handling — same
skeleton as the src vendors (pinned by `test_llm_openai.py::test_request`),
with the message-entry concatenation above and `usage.input_tokens` /
`usage.output_tokens` counts. -/
def openaiRequest (o : HttpOutcome) : Except PyExc LlmResponse :=
  match o with
  | .reply r =>
      if r.status_code = 200 then
        match r.jsonLoads with
        | Option.none => .error .jsonDecodeErr
        | Option.some content => do
            let out ← pyGetD content "output" (.arr [])
            let entries ← match out with
              | .arr es => Except.ok es
              | _ => Except.error PyExc.typeErr
            let text ← oaiCollect (.str "") entries
            let usage ← pyGetD content "usage" (.obj [])
            let p ← pyGet1 usage "input_tokens"
            let g ← pyGet1 usage "output_tokens"
            let c ← toHTTPStatus r.status_code
            .ok ⟨c, text, ⟨orZero p, orZero g⟩⟩
      else plainResponse r.status_code r.text
  | .exc desc Option.none => plainResponse 400 ("Request failed: " ++ desc)
  | .exc _ (Option.some er) => plainResponse er.status_code er.text

/-!
### Turn store and retry driver (modelled: `llm_base.py` is absent)
-/

/-- Modelled from the spec: `LlmBase.add_prompt` for a turn already known
to have one of the three recognized roles — `system` replaces the text of
an existing system turn at index 0 or is inserted at index 0, `user` and
`model` turns are appended (pinned by `test_llm_base.py`). -/
def addPrompt (prompts : List LlmTurn) (t : LlmTurn) : List LlmTurn :=
  match t.role with
  | .system =>
      match prompts with
      | p :: rest => if p.role = .system then ⟨.system, t.text⟩ :: rest else t :: p :: rest
      | [] => [t]
  | _ => prompts ++ [t]

/-- Modelled from the spec: role strings accepted by `LlmBase.add_prompt`;
any other role is silently ignored. -/
def roleOfString : String → Option LlmRole
  | "system" => Option.some .system
  | "user" => Option.some .user
  | "model" => Option.some .model
  | _ => Option.none

/-- Modelled from the spec: `LlmBase.add_prompt` on a raw role string —
turns with an unrecognized role are dropped without error. -/
def addPromptStr (prompts : List LlmTurn) (role : String) (text : List String) :
    List LlmTurn :=
  match roleOfString role with
  | Option.some r => addPrompt prompts ⟨r, text⟩
  | Option.none => prompts

/-- Modelled from the spec: the synthetic exhaustion result appended by
`LlmBase.attempt_requests` — status 429, a message stating the
max-attempts value, zero tokens (text pinned by
`test_llm_base.py::test_attempt_requests`). -/
def exhaustedResponse (maxAttempts : Nat) : LlmResponse :=
  ⟨429, .str ("Http error: max attempts (" ++ toString maxAttempts ++ ") exceeded."),
    ⟨.num 0, .num 0⟩⟩

/-- Modelled from the spec: the attempt loop of `LlmBase.attempt_requests`.
`req i` is the unified result of the i-th invocation of `request()`;
`fuel` counts the attempts still allowed.  The loop stops on exact status
200 and otherwise keeps going, appending the synthetic result once the
budget is exhausted. -/
def attemptLoop (req : Nat → LlmResponse) (maxAttempts : Nat) :
    Nat → Nat → List LlmResponse
  | _, 0 => [exhaustedResponse maxAttempts]
  | i, fuel + 1 =>
      let r := req i
      if r.code = 200 then [r] else r :: attemptLoop req maxAttempts (i + 1) fuel

/-- Modelled from the spec: `LlmBase.attempt_requests(max_attempts)` —
repeatedly invoke `request()`, collecting every unified result in order,
stopping on exact status 200, with the synthetic 429 result appended when
all `max_attempts` attempts failed to stop. -/
def attemptRequests (req : Nat → LlmResponse) (maxAttempts : Nat) : List LlmResponse :=
  attemptLoop req maxAttempts 0 maxAttempts

/-- Modelled from the spec: `LlmBase.base64_encoded_content_of(file_url)`
— fetch the URL through the transport; on success report the
`Content-Type` header (default `application/octet-stream`), the
base64-encoded content and the raw byte size; on a transport exception
return the zero-valued `FileContent` (pinned by
`test_llm_base.py::test_base64_encoded_content_of`).  The argument is the
outcome of the `get`: raw bytes and optional `Content-Type` header, or
`none` when the transport raised. -/
def base64EncodedContentOf (fetched : Option (List Nat × Option String)) : FileContent :=
  match fetched with
  | Option.none => ⟨"", "", 0⟩
  | Option.some (raw, hdr) =>
      ⟨hdr.getD "application/octet-stream", String.mk (b64EncodeBytes raw), raw.length⟩

/-!
### Contiguous-run view of the build loop

`buildEntries` is the literal embedding of the vendor loops; `turnRuns`
and `entryOf` give the specification-level view: the maximal contiguous
runs of turns with equal wire role, one message entry per run, one content
part per source turn.
-/

/-- The build loop continued from an open final entry `e`. -/
def mergeFrom (wr : LlmRole → String) (mk : LlmTurn → PyVal) (e : MsgEntry) :
    List LlmTurn → List MsgEntry
  | [] => [e]
  | t :: ts =>
      if e.role = wr t.role then mergeFrom wr mk ⟨e.role, e.parts ++ [mk t]⟩ ts
      else e :: mergeFrom wr mk ⟨wr t.role, [mk t]⟩ ts

/-- Maximal contiguous runs of turns with equal wire role. -/
def turnRuns (wr : LlmRole → String) : List LlmTurn → List (List LlmTurn)
  | [] => []
  | t :: ts =>
      match turnRuns wr ts with
      | (u :: c) :: cs =>
          if wr u.role = wr t.role then (t :: u :: c) :: cs else [t] :: (u :: c) :: cs
      | _ => [[t]]

/-- Wire role of the first turn of a run (runs are never empty). -/
def headWire (wr : LlmRole → String) : List LlmTurn → String
  | u :: _ => wr u.role
  | [] => ""

/-- The message entry a run of turns produces: the run's wire role and one
content part per source turn, in original order. -/
def entryOf (wr : LlmRole → String) (mk : LlmTurn → PyVal) (c : List LlmTurn) : MsgEntry :=
  ⟨headWire wr c, c.map mk⟩

/-- The attachment-embedding gate of `LlmAnthropic.to_dict`: a non-empty
file queue and a non-empty message list ending in the `"user"` wire role. -/
def anthGate (st : LlmState) : Bool :=
  !st.file_urls.isEmpty && lastRoleIsUser (buildEntries anthRoleOf anthPart st.prompts)

/-- The attachment-embedding gate of `LlmGoogle.to_dict`. -/
def googGate (st : LlmState) : Bool :=
  !st.file_urls.isEmpty && lastRoleIsUser (buildEntries googRoleOf googPart st.prompts)

/-- The attachment-embedding gate of the modelled `LlmOpenai.to_dict`. -/
def oaiGate (st : LlmState) : Bool :=
  !st.file_urls.isEmpty && lastRoleIsUser (oaiBuild st.prompts).2

/-- Definition following claim C4's words: a queued reference is embedded
if and only if the resolver reports non-zero size and the running
cumulative size of embedded attachments after adding it is strictly under
the 10 MiB budget; a reference that fails the check is skipped without
increasing the running total, so a later smaller reference that fits the
remaining headroom is still embedded. -/
def claimEmbedSelect (resolve : LlmFileUrl → FileContent) (running : Nat) :
    List LlmFileUrl → List LlmFileUrl
  | [] => []
  | f :: rest =>
      let fc := resolve f
      if fc.size ≠ 0 ∧ running + fc.size < 10 * 1024 * 1024 then
        f :: claimEmbedSelect resolve (running + fc.size) rest
      else claimEmbedSelect resolve running rest

/-- The queued references of the budget scenario in
`test_llm_google.py::test_to_dict_with_files`. -/
def queueC4 : List LlmFileUrl :=
  [⟨"https://example.com/doc1.pdf", .pdf⟩, ⟨"https://example.com/pic1.jpg", .image⟩,
   ⟨"https://example.com/text1.txt", .text⟩, ⟨"https://example.com/doc2.pdf", .pdf⟩,
   ⟨"https://example.com/pic2.jpg", .image⟩, ⟨"https://example.com/text2.txt", .text⟩]

/-- The resolver of the budget scenario: sizes 4, 3, 2, 2, 2 MiB and
1 MiB − 1. -/
def resolveC4 : LlmFileUrl → FileContent := fun f =>
  if f.url = "https://example.com/doc1.pdf" then ⟨"type1", "Y29udGVudDE=", 4 * 1024 * 1024⟩
  else if f.url = "https://example.com/pic1.jpg" then ⟨"type2", "Y29udGVudDI=", 3 * 1024 * 1024⟩
  else if f.url = "https://example.com/text1.txt" then ⟨"type3", "Y29udGVudDM=", 2 * 1024 * 1024⟩
  else if f.url = "https://example.com/doc2.pdf" then ⟨"type4", "Y29udGVudDQ=", 2 * 1024 * 1024⟩
  else if f.url = "https://example.com/pic2.jpg" then ⟨"type5", "Y29udGVudDU=", 2 * 1024 * 1024⟩
  else ⟨"type6", "Y29udGVudDY=", 1 * 1024 * 1024 - 1⟩

/-- An optional integer field of a usage object (absent when `none`). -/
def optNum (k : String) : Option Int → List (String × PyVal)
  | Option.some n => [(k, .num n)]
  | Option.none => []

/-- An Anthropic success body per the documented schema:
`{"content": [{"text": t}], "usage": {...}}` with each token field
optional. -/
def anthSuccessBody (t : String) (p g : Option Int) : PyVal :=
  .obj [("content", .arr [.obj [("text", .str t)]]),
        ("usage", .obj (optNum "input_tokens" p ++ optNum "output_tokens" g))]

/-- A Google success body per the documented schema:
`{"candidates": [{"content": {"parts": [{"text": t}]}}],
"usageMetadata": {...}}` with each token field optional. -/
def googSuccessBody (t : String) (p c th : Option Int) : PyVal :=
  .obj [("candidates", .arr [.obj [("content",
          .obj [("parts", .arr [.obj [("text", .str t)]])])]]),
        ("usageMetadata", .obj (optNum "promptTokenCount" p ++
          optNum "candidatesTokenCount" c ++ optNum "thoughtsTokenCount" th))]

/-- One output entry of an OpenAI success body in the documented schema:
a message-kind entry carrying text fragments, or an entry of any other
kind — its remaining fields arbitrary, since the normalizer never reads
them. -/
inductive OaiOutEntry where
  | message (texts : List String)
  | other (kind : String) (rest : List (String × PyVal))

/-- The JSON value of a schema output entry. -/
def oaiOutEntryVal : OaiOutEntry → PyVal
  | .message texts => .obj [("type", .str "message"),
      ("content", .arr (texts.map (fun t => .obj [("text", .str t)])))]
  | .other kind rest => .obj (("type", .str kind) :: rest)

/-- Whether an entry declared of another kind really carries a kind other
than `"message"`. -/
def oaiOutEntrySkipOk : OaiOutEntry → Bool
  | .message _ => true
  | .other kind _ => kind != "message"

/-- The text the documented schema prescribes for an output list: only
message entries contribute, their fragments concatenated in list order
with no separator. -/
def oaiExpectedText : List OaiOutEntry → String
  | [] => ""
  | .message texts :: rest =>
      texts.foldl (fun a b => a ++ b) "" ++ oaiExpectedText rest
  | .other _ _ :: rest => oaiExpectedText rest

/-- An OpenAI success body per the documented schema: an output list
mixing message entries with entries of other kinds, and a usage object
with optional integer fields. -/
def oaiSuccessBody (entries : List OaiOutEntry) (p g : Option Int) : PyVal :=
  .obj [("output", .arr (entries.map oaiOutEntryVal)),
        ("usage", .obj (optNum "input_tokens" p ++ optNum "output_tokens" g))]

/-- Whether a Python value is a string. -/
def isStr : PyVal → Bool
  | .str _ => true
  | _ => false

/-- Whether a Python value is an integer. -/
def isNum : PyVal → Bool
  | .num _ => true
  | _ => false

/-- An optional field that is absent or a string. -/
def strOrAbsent : Option PyVal → Bool
  | Option.none => true
  | Option.some (.str _) => true
  | _ => false

/-- An optional field that is absent or an integer. -/
def numOrAbsent : Option PyVal → Bool
  | Option.none => true
  | Option.some (.num _) => true
  | _ => false

/-- A well-formed unified result: a status inside the HTTP enumeration,
string text and integer token counts. -/
def wellFormedResp (r : LlmResponse) : Bool :=
  validHTTPStatus r.code && isStr r.response && isNum r.tokens.prompt &&
    isNum r.tokens.generated

/-- The `content` field shape the Anthropic success walk handles without
raising: absent, or a list whose first element is a dict with `text`
absent or a string. -/
def anthContentOk : Option PyVal → Bool
  | Option.none => true
  | Option.some (.arr (.obj fkvs :: _)) => strOrAbsent (lookupKey fkvs "text")
  | _ => false

/-- A usage field that is absent, or a dict. -/
def usageShape : Option PyVal → Bool
  | Option.none => true
  | Option.some (.obj _) => true
  | _ => false

/-- A usage dict whose field under `k` is absent or an integer. -/
def usageField (u : Option PyVal) (k : String) : Bool :=
  match u with
  | Option.some (.obj ukvs) => numOrAbsent (lookupKey ukvs k)
  | _ => true

/-- A usage object with two optional integer fields. -/
def usage2Ok (k₁ k₂ : String) (u : Option PyVal) : Bool :=
  usageShape u && usageField u k₁ && usageField u k₂

/-- A 200 body the Anthropic normalizer handles without raising. -/
def anthConforms : PyVal → Bool
  | .obj kvs =>
      anthContentOk (lookupKey kvs "content") &&
        usage2Ok "input_tokens" "output_tokens" (lookupKey kvs "usage")
  | _ => false

/-- The text the Anthropic walk extracts from a conforming `content`
field. -/
def anthTextOf (o : Option PyVal) : String :=
  match o with
  | Option.some (.arr (.obj fkvs :: _)) =>
      match lookupKey fkvs "text" with
      | Option.some (.str s) => s
      | _ => ""
  | _ => ""

/-- A token count extracted from an optional usage object under a key,
zero when absent. -/
def tokOf (u : Option PyVal) (k : String) : Int :=
  match u with
  | Option.some (.obj ukvs) =>
      match lookupKey ukvs k with
      | Option.some (.num n) => n
      | _ => 0
  | _ => 0

/-- The HTTP-call outcomes on which the Anthropic normalizer provably
returns: every status code involved is in the HTTP enumeration, and a 200
body parses to a JSON value the success walk handles. -/
def anthValidOutcome : HttpOutcome → Bool
  | .reply r =>
      validHTTPStatus r.status_code &&
        (if r.status_code = 200 then
          (match r.jsonLoads with
           | Option.some j => anthConforms j
           | Option.none => false)
        else true)
  | .exc _ Option.none => true
  | .exc _ (Option.some er) => validHTTPStatus er.status_code

/-- The `parts` shape the Google success walk handles without raising. -/
def googPartsOk : Option PyVal → Bool
  | Option.none => true
  | Option.some (.arr (.obj pkvs :: _)) => strOrAbsent (lookupKey pkvs "text")
  | _ => false

/-- The first candidate's `content` shape the Google walk handles. -/
def googCandContentOk : Option PyVal → Bool
  | Option.none => true
  | Option.some (.obj ikvs) => googPartsOk (lookupKey ikvs "parts")
  | _ => false

/-- The `candidates` shape the Google walk handles. -/
def googCandsOk : Option PyVal → Bool
  | Option.none => true
  | Option.some (.arr (.obj ckvs :: _)) => googCandContentOk (lookupKey ckvs "content")
  | _ => false

/-- A usage object with three optional integer fields. -/
def usage3Ok (k₁ k₂ k₃ : String) (u : Option PyVal) : Bool :=
  usageShape u && usageField u k₁ && usageField u k₂ && usageField u k₃

/-- A 200 body the Google normalizer handles without raising. -/
def googConforms : PyVal → Bool
  | .obj kvs =>
      googCandsOk (lookupKey kvs "candidates") &&
        usage3Ok "promptTokenCount" "candidatesTokenCount" "thoughtsTokenCount"
          (lookupKey kvs "usageMetadata")
  | _ => false

/-- The text the Google walk extracts from a conforming `candidates`
field. -/
def googTextOf (o : Option PyVal) : String :=
  match o with
  | Option.some (.arr (.obj ckvs :: _)) =>
      match lookupKey ckvs "content" with
      | Option.some (.obj ikvs) =>
          match lookupKey ikvs "parts" with
          | Option.some (.arr (.obj pkvs :: _)) =>
              match lookupKey pkvs "text" with
              | Option.some (.str s) => s
              | _ => ""
          | _ => ""
      | Option.none => ""
      | _ => ""
  | _ => ""

/-- The HTTP-call outcomes on which the Google normalizer provably
returns. -/
def googValidOutcome : HttpOutcome → Bool
  | .reply r =>
      validHTTPStatus r.status_code &&
        (if r.status_code = 200 then
          (match r.jsonLoads with
           | Option.some j => googConforms j
           | Option.none => false)
        else true)
  | .exc _ Option.none => true
  | .exc _ (Option.some er) => validHTTPStatus er.status_code

/-- A fragment the OpenAI text walk handles: a dict whose `text` is absent
or a string. -/
def oaiFragOk : PyVal → Bool
  | .obj fkvs => strOrAbsent (lookupKey fkvs "text")
  | _ => false

/-- An output entry the OpenAI walk handles: a dict; when its `type` is
exactly `"message"`, its `content` must be absent or a list of conforming
fragments. -/
def oaiEntryOk : PyVal → Bool
  | .obj ekvs =>
      if (lookupKey ekvs "type").getD .nil = .str "message" then
        match lookupKey ekvs "content" with
        | Option.none => true
        | Option.some (.arr fs) => fs.all oaiFragOk
        | _ => false
      else true
  | _ => false

/-- An `output` field the OpenAI walk handles. -/
def oaiOutputOk : Option PyVal → Bool
  | Option.none => true
  | Option.some (.arr es) => es.all oaiEntryOk
  | _ => false

/-- A 200 body the modelled OpenAI normalizer handles without raising. -/
def oaiConforms : PyVal → Bool
  | .obj kvs =>
      oaiOutputOk (lookupKey kvs "output") &&
        usage2Ok "input_tokens" "output_tokens" (lookupKey kvs "usage")
  | _ => false

/-- The HTTP-call outcomes on which the modelled OpenAI normalizer
provably returns. -/
def oaiValidOutcome : HttpOutcome → Bool
  | .reply r =>
      validHTTPStatus r.status_code &&
        (if r.status_code = 200 then
          (match r.jsonLoads with
           | Option.some j => oaiConforms j
           | Option.none => false)
        else true)
  | .exc _ Option.none => true
  | .exc _ (Option.some er) => validHTTPStatus er.status_code

theorem turnRuns_ne_nil (wr : LlmRole → String) :
    ∀ ts : List LlmTurn, [] ∉ turnRuns wr ts := by
  intro ts
  induction ts with
  | nil => simp [turnRuns]
  | cons t ts ih =>
    rcases h : turnRuns wr ts with _ | ⟨_ | ⟨u, c⟩, cs⟩
    · simp [turnRuns, h]
    · exact absurd (h ▸ List.mem_cons_self _ _) ih
    · simp only [turnRuns, h]
      split
      · intro hm
        rcases List.mem_cons.mp hm with h₁ | h₁
        · exact List.noConfusion h₁
        · exact ih (h ▸ List.mem_cons_of_mem _ h₁)
      · intro hm
        rcases List.mem_cons.mp hm with h₁ | h₁
        · exact List.noConfusion h₁
        · exact ih (h ▸ h₁)

theorem turnRuns_eq_nil_iff (wr : LlmRole → String) (ts : List LlmTurn) :
    turnRuns wr ts = [] ↔ ts = [] := by
  cases ts with
  | nil => simp [turnRuns]
  | cons t ts =>
    simp only [turnRuns]
    constructor
    · intro h
      rcases h' : turnRuns wr ts with _ | ⟨_ | ⟨u, c⟩, cs⟩ <;> rw [h'] at h <;>
        first
          | exact List.noConfusion h
          | (dsimp at h; split at h <;> exact List.noConfusion h)
    · intro h; exact List.noConfusion h

/-- Every source turn lands in exactly its place: the runs flatten back to
the original turn list. -/
theorem turnRuns_flatten (wr : LlmRole → String) :
    ∀ ts : List LlmTurn, (turnRuns wr ts).flatten = ts := by
  intro ts
  induction ts with
  | nil => simp [turnRuns]
  | cons t ts ih =>
    rcases h : turnRuns wr ts with _ | ⟨_ | ⟨u, c⟩, cs⟩
    · have : ts = [] := (turnRuns_eq_nil_iff wr ts).mp h
      simp [turnRuns, h, this]
    · exact absurd (h ▸ List.mem_cons_self _ _) (turnRuns_ne_nil wr ts)
    · rw [h] at ih
      simp only [turnRuns, h]
      split <;> simp_all

theorem foldl_buildStep_concat (wr : LlmRole → String) (mk : LlmTurn → PyVal) :
    ∀ (ts : List LlmTurn) (pre : List MsgEntry) (e : MsgEntry),
      List.foldl (buildStep wr mk) (pre ++ [e]) ts = pre ++ mergeFrom wr mk e ts := by
  intro ts
  induction ts with
  | nil => intro pre e; simp [mergeFrom]
  | cons t ts ih =>
    intro pre e
    have hstep : buildStep wr mk (pre ++ [e]) t =
        if e.role = wr t.role then pre ++ [⟨e.role, e.parts ++ [mk t]⟩]
        else (pre ++ [e]) ++ [⟨wr t.role, [mk t]⟩] := by
      simp [buildStep, List.getLast?_concat, List.dropLast_concat]
    by_cases h : e.role = wr t.role
    · rw [List.foldl_cons, hstep, if_pos h, ih, mergeFrom, if_pos h]
    · rw [List.foldl_cons, hstep, if_neg h, ih, mergeFrom, if_neg h]
      simp

theorem mergeFrom_eq_runs (wr : LlmRole → String) (mk : LlmTurn → PyVal) :
    ∀ (ts : List LlmTurn) (e : MsgEntry),
      mergeFrom wr mk e ts =
        match turnRuns wr ts with
        | [] => [e]
        | c :: cs =>
            if e.role = headWire wr c then
              ⟨e.role, e.parts ++ c.map mk⟩ :: cs.map (entryOf wr mk)
            else e :: (c :: cs).map (entryOf wr mk) := by
  intro ts
  induction ts with
  | nil => intro e; simp [mergeFrom, turnRuns]
  | cons t ts ih =>
    intro e
    rcases h : turnRuns wr ts with _ | ⟨_ | ⟨u, c⟩, cs⟩
    · simp only [turnRuns, h]
      by_cases he : e.role = wr t.role
      · rw [mergeFrom, if_pos he, ih, h]
        simp [headWire, he]
      · rw [mergeFrom, if_neg he, ih, h]
        simp [headWire, entryOf, he]
    · exact absurd (h ▸ List.mem_cons_self _ _) (turnRuns_ne_nil wr ts)
    · simp only [turnRuns, h]
      by_cases he : e.role = wr t.role
      · rw [mergeFrom, if_pos he, ih, h]
        by_cases hu : wr u.role = wr t.role
        · rw [if_pos hu]
          simp [headWire, he, hu.symm, he.trans hu.symm, entryOf]
        · rw [if_neg hu]
          have hnot : ¬ e.role = headWire wr (u :: c) := by
            simp only [headWire]; rw [he]; exact fun hh => hu hh.symm
          have hnot2 : ¬ wr t.role = wr u.role := fun hh => hu hh.symm
          simp [headWire, he, hnot, hnot2, entryOf]
      · rw [mergeFrom, if_neg he, ih, h]
        by_cases hu : wr u.role = wr t.role
        · rw [if_pos hu]
          have hne : ¬ e.role = wr u.role := fun hh => he (hh.trans hu)
          simp [headWire, he, hu.symm, hne, entryOf]
        · rw [if_neg hu]
          have hnot : ¬ wr t.role = headWire wr (u :: c) := by
            simp only [headWire]; exact fun hh => hu hh.symm
          have hnot2 : ¬ wr t.role = wr u.role := fun hh => hu hh.symm
          simp [headWire, he, hnot, hnot2, entryOf]

/-- The vendor build loop computes exactly the run decomposition: one
message entry per maximal contiguous run of equal-wire-role turns, whose
parts are one content block per source turn, in original order. -/
theorem buildEntries_eq_runs (wr : LlmRole → String) (mk : LlmTurn → PyVal)
    (ts : List LlmTurn) :
    buildEntries wr mk ts = (turnRuns wr ts).map (entryOf wr mk) := by
  cases ts with
  | nil => simp [buildEntries, turnRuns]
  | cons t ts =>
    have h0 : buildEntries wr mk (t :: ts) = mergeFrom wr mk ⟨wr t.role, [mk t]⟩ ts := by
      have : buildStep wr mk [] t = [] ++ [⟨wr t.role, [mk t]⟩] := by simp [buildStep]
      rw [buildEntries, List.foldl_cons, this, foldl_buildStep_concat]
      simp
    rw [h0, mergeFrom_eq_runs]
    rcases h : turnRuns wr ts with _ | ⟨_ | ⟨u, c⟩, cs⟩
    · have : ts = [] := (turnRuns_eq_nil_iff wr ts).mp h
      simp [turnRuns, h, entryOf, headWire]
    · exact absurd (h ▸ List.mem_cons_self _ _) (turnRuns_ne_nil wr ts)
    · simp only [turnRuns, h]
      by_cases hu : wr u.role = wr t.role
      · rw [if_pos hu]
        simp [headWire, hu, entryOf]
      · rw [if_neg hu]
        have hnot : ¬ wr t.role = headWire wr (u :: c) := by
          simp only [headWire]; exact fun hh => hu hh.symm
        have hnot2 : ¬ wr t.role = wr u.role := fun hh => hu hh.symm
        simp [headWire, hnot, hnot2, entryOf]

theorem oaiFold_snd (ts : List LlmTurn) :
    ∀ (ins : String) (es : List MsgEntry),
      (List.foldl oaiStep (ins, es) ts).2 = es ++ ts.filterMap oaiEntryOf := by
  induction ts with
  | nil => intro ins es; simp
  | cons t ts ih =>
    intro ins es
    cases ht : t.role <;>
      simp [List.foldl_cons, oaiStep, oaiEntryOf, ht, ih]

/-- Claim C1 (counterexample): in the OpenAI payload build, two contiguous
user turns — whose roles map to the same wire role `"user"` — produce two
separate input entries, not one merged entry with two content blocks, so
the claimed merging does not hold for every vendor. -/
theorem C1_counterexample :
    (oaiBuild [⟨.user, ["a"]⟩, ⟨.user, ["b"]⟩]).2 =
      [⟨"user", [.obj [("type", .str "input_text"), ("text", .str "a")]]⟩,
       ⟨"user", [.obj [("type", .str "input_text"), ("text", .str "b")]]⟩] ∧
    ([⟨"user", [.obj [("type", .str "input_text"), ("text", .str "a")]]⟩,
      ⟨"user", [.obj [("type", .str "input_text"), ("text", .str "b")]]⟩] :
        List MsgEntry).length ≠ 1 := by
  constructor
  · rfl
  · decide

/-- Claim C1 (amended): for the Anthropic and Google payload builds,
contiguous runs of turns whose roles map to the same wire role merge into
a single message entry containing one content block per source turn, in
original order (the runs flatten back to the stored turn list), and a
role change always starts a new entry even if the same wire role
reappears later non-contiguously; the OpenAI build instead emits one
input entry per non-system stored turn, in order, never merging, with
system turns diverted to the instructions field. -/
theorem C1_contiguous_merging (ts : List LlmTurn) :
    buildEntries anthRoleOf anthPart ts =
        (turnRuns anthRoleOf ts).map (entryOf anthRoleOf anthPart)
  ∧ buildEntries googRoleOf googPart ts =
        (turnRuns googRoleOf ts).map (entryOf googRoleOf googPart)
  ∧ (turnRuns anthRoleOf ts).flatten = ts
  ∧ (turnRuns googRoleOf ts).flatten = ts
  ∧ (oaiBuild ts).2 = ts.filterMap oaiEntryOf := by
  refine ⟨buildEntries_eq_runs _ _ ts, buildEntries_eq_runs _ _ ts,
    turnRuns_flatten _ ts, turnRuns_flatten _ ts, ?_⟩
  simpa using oaiFold_snd ts "" []

/-- Claim C2 (counterexample): with an empty turn list and one queued
reference, the Google payload build leaves the file-reference queue
untouched (one element), not empty. -/
theorem C2_counterexample :
    (googleToDict (fun _ => ⟨"", "", 0⟩) ⟨"k", "m"⟩
        ⟨[], [⟨"https://example.com/f.pdf", .pdf⟩]⟩).2 =
      [⟨"https://example.com/f.pdf", .pdf⟩] ∧
    ([⟨"https://example.com/f.pdf", .pdf⟩] : List LlmFileUrl) ≠ [] := by
  constructor
  · rfl
  · decide

/-- Claim C2 (amended): a payload build empties the file-reference queue
exactly when the embedding gate holds — the queue is non-empty and the
built message list ends in the user wire role — and the build returns
normally; otherwise the queue is left unchanged.  (For Anthropic the
result is stated through `Except.map`: if the drain raises, no payload is
produced at all.) -/
theorem C2_queue_after_build (resolve : LlmFileUrl → FileContent)
    (s : LlmSettings) (st : LlmState) :
    (anthropicToDict resolve s st).map Prod.snd =
        (if anthGate st then
          (anthItems resolve st.file_urls).map (fun _ => ([] : List LlmFileUrl))
        else .ok st.file_urls)
  ∧ (googleToDict resolve s st).2 = (if googGate st then [] else st.file_urls)
  ∧ (openaiToDict s st).2 = (if oaiGate st then [] else st.file_urls) := by
  refine ⟨?_, ?_, ?_⟩
  · rw [anthropicToDict, anthGate]
    split
    · cases h : anthItems resolve st.file_urls <;>
        simp [Except.map, bind, Except.bind, h]
    · simp [Except.map]
  · rw [googleToDict, googGate]
    split <;> simp
  · rw [openaiToDict, oaiGate]
    cases hb : oaiBuild st.prompts with
    | mk ins input =>
        simp only [hb]
        split <;> simp_all

theorem googDrain_parts (resolve : LlmFileUrl → FileContent) :
    ∀ (q : List LlmFileUrl) (n : Nat),
      (googDrain resolve n q).1 =
        (claimEmbedSelect resolve n q).map (fun f => googInline (resolve f)) := by
  intro q
  induction q with
  | nil => intro n; simp [googDrain, claimEmbedSelect]
  | cons f rest ih =>
    intro n
    by_cases h : (resolve f).size ≠ 0 ∧ n + (resolve f).size < 10 * 1024 * 1024
    · have h' : (resolve f).size > 0 ∧ n + (resolve f).size < googMaxSize := by
        refine ⟨Nat.pos_of_ne_zero h.1, ?_⟩
        simpa [googMaxSize] using h.2
      simp [googDrain, claimEmbedSelect, h, h', ih]
    · have h' : ¬ ((resolve f).size > 0 ∧ n + (resolve f).size < googMaxSize) := by
        intro hc
        exact h ⟨Nat.pos_iff_ne_zero.mp hc.1, by simpa [googMaxSize] using hc.2⟩
      simp [googDrain, claimEmbedSelect, h, h', ih]

theorem googDrain_fetches_all (resolve : LlmFileUrl → FileContent) :
    ∀ (q : List LlmFileUrl) (n : Nat), (googDrain resolve n q).2 = q := by
  intro q
  induction q with
  | nil => intro n; simp [googDrain]
  | cons f rest ih =>
    intro n
    by_cases h : (resolve f).size > 0 ∧ n + (resolve f).size < googMaxSize <;>
      simp [googDrain, h, ih]

/-- Claim C4 (confirmed): when the Google embedding phase runs (non-empty
queue, built content list ending in the user wire role), every queued
reference is popped and fetched (the drain's fetch log is the whole
queue), the queue ends empty, and the parts appended to the final entry
are exactly one inline part per reference selected by the claim's greedy
budget rule: embedded iff non-zero size and running total strictly under
10 MiB after adding it, skipped references not counting toward the
total. -/
theorem C4_google_budget (resolve : LlmFileUrl → FileContent) (s : LlmSettings)
    (prompts : List LlmTurn) (queue : List LlmFileUrl)
    (hq : queue ≠ [])
    (hu : lastRoleIsUser (buildEntries googRoleOf googPart prompts) = true) :
    googleToDict resolve s ⟨prompts, queue⟩ =
      (.obj (settingsToDict s ++
        [("contents", .arr ((appendToLast (buildEntries googRoleOf googPart prompts)
          ((claimEmbedSelect resolve 0 queue).map (fun f => googInline (resolve f)))).map
            googMsgVal))]), [])
  ∧ (googDrain resolve 0 queue).2 = queue := by
  have hgate : (!(queue : List LlmFileUrl).isEmpty && lastRoleIsUser
      (buildEntries googRoleOf googPart prompts)) = true := by
    rcases queue with _ | ⟨f, rest⟩
    · exact absurd rfl hq
    · simp [hu]
  constructor
  · rw [googleToDict]
    simp only [hgate, if_pos]
    rw [show (googDrain resolve 0 queue).1 =
      (claimEmbedSelect resolve 0 queue).map (fun f => googInline (resolve f)) from
        googDrain_parts resolve queue 0]
  · exact googDrain_fetches_all resolve queue 0

/-- Witness for C4: on the test scenario the greedy rule selects files
1, 2 and 3 (4+3+2 = 9 MiB), drops both 2 MiB files (total would reach
11 MiB), still embeds the final 1 MiB − 1 file, and the payload build
matches the theorem's conclusion with the whole queue fetched. -/
theorem C4_google_budget_witness :
    claimEmbedSelect resolveC4 0 queueC4 =
      [⟨"https://example.com/doc1.pdf", .pdf⟩, ⟨"https://example.com/pic1.jpg", .image⟩,
       ⟨"https://example.com/text1.txt", .text⟩, ⟨"https://example.com/text2.txt", .text⟩]
  ∧ (googleToDict resolveC4 ⟨"test_key", "test_model"⟩ ⟨[⟨.user, ["the prompt"]⟩], queueC4⟩ =
      (.obj (settingsToDict ⟨"test_key", "test_model"⟩ ++
        [("contents", .arr ((appendToLast
          (buildEntries googRoleOf googPart [⟨.user, ["the prompt"]⟩])
          ((claimEmbedSelect resolveC4 0 queueC4).map
            (fun f => googInline (resolveC4 f)))).map googMsgVal))]), [])
    ∧ (googDrain resolveC4 0 queueC4).2 = queueC4) :=
  ⟨by decide,
    C4_google_budget resolveC4 ⟨"test_key", "test_model"⟩ [⟨.user, ["the prompt"]⟩] queueC4
      (by decide) (by decide)⟩

/-- Claim C10 (confirmed): in the Anthropic payload build, a queued TEXT
reference whose resolution failed (the resolver returned the zero-valued
`FileContent`: empty mime type, empty content, zero size) is still
embedded as a plain-text document block whose `data` is the empty string
— no size or validity check drops it. -/
theorem C10_failed_text_still_embedded (url : String) (s : LlmSettings) :
    anthropicToDict (fun _ => base64EncodedContentOf Option.none) s
        ⟨[⟨.user, ["the prompt"]⟩], [⟨url, .text⟩]⟩ =
      .ok (.obj (settingsToDict s ++ [("messages", .arr
        [.obj [("role", .str "user"), ("content", .arr
          [anthPart ⟨.user, ["the prompt"]⟩,
           .obj [("type", .str "document"), ("source", .obj [("type", .str "text"),
             ("media_type", .str "text/plain"), ("data", .str "")])]])]])]), []) := rfl

theorem attemptLoop_all_fail (req : Nat → LlmResponse) (maxA : Nat) :
    ∀ (fuel i : Nat), (∀ j, j < fuel → (req (i + j)).code ≠ 200) →
      attemptLoop req maxA i fuel =
        (List.range fuel).map (fun j => req (i + j)) ++ [exhaustedResponse maxA] := by
  intro fuel
  induction fuel with
  | zero => intro i _; simp [attemptLoop]
  | succ fuel ih =>
    intro i h
    have h0 : (req i).code ≠ 200 := by
      have := h 0 (Nat.succ_pos fuel)
      simpa using this
    have hrest : ∀ j, j < fuel → (req (i + 1 + j)).code ≠ 200 := by
      intro j hj
      have := h (j + 1) (Nat.succ_lt_succ hj)
      simpa [Nat.add_assoc, Nat.add_comm 1 j] using this
    rw [attemptLoop, if_neg h0, ih (i + 1) hrest, List.range_succ_eq_map]
    simp [List.map_map, Function.comp, Nat.add_assoc, Nat.add_comm 1]

theorem attemptLoop_first_success (req : Nat → LlmResponse) (maxA : Nat) :
    ∀ (fuel k i : Nat), k < fuel → (req (i + k)).code = 200 →
      (∀ j, j < k → (req (i + j)).code ≠ 200) →
      attemptLoop req maxA i fuel = (List.range (k + 1)).map (fun j => req (i + j)) := by
  intro fuel
  induction fuel with
  | zero => intro k i hk; omega
  | succ fuel ih =>
    intro k i hk hsucc hbefore
    cases k with
    | zero =>
      have : (req i).code = 200 := by simpa using hsucc
      rw [attemptLoop, if_pos this]
      simp [List.range_succ_eq_map]
    | succ k =>
      have h0 : (req i).code ≠ 200 := by
        have := hbefore 0 (Nat.succ_pos k)
        simpa using this
      have hsucc' : (req (i + 1 + k)).code = 200 := by
        have : i + 1 + k = i + (k + 1) := by omega
        rw [this]; exact hsucc
      have hbefore' : ∀ j, j < k → (req (i + 1 + j)).code ≠ 200 := by
        intro j hj
        have := hbefore (j + 1) (Nat.succ_lt_succ hj)
        simpa [Nat.add_assoc, Nat.add_comm 1 j] using this
      rw [attemptLoop, if_neg h0,
        ih k (i + 1) (Nat.lt_of_succ_lt_succ hk) hsucc' hbefore']
      conv_rhs => rw [List.range_succ_eq_map, List.map_cons, List.map_map]
      congr 1
      refine List.map_eq_map_iff.mpr ?_
      intro j _
      simp only [Function.comp]
      congr 1
      omega

/-- Claim C5 (confirmed): the retry driver stops only on exact status 200
(any other status, 429 included, continues), accumulates every attempt's
unified result in order, and on exhaustion appends one final synthetic
result with status 429, a text stating the max-attempts value that was
exceeded, and zero tokens; the returned sequence is the first
`k + 1 = min(attemptsUntilSuccess, maxAttempts)` results on success (the
200 result last) and all `maxAttempts` results plus the sentinel — length
`maxAttempts + 1` — on exhaustion. -/
theorem C5_attempt_requests (req : Nat → LlmResponse) (maxA k : Nat) :
    (k < maxA → (req k).code = 200 → (∀ j, j < k → (req j).code ≠ 200) →
      attemptRequests req maxA = (List.range (k + 1)).map req
      ∧ (attemptRequests req maxA).length = min (k + 1) maxA
      ∧ (attemptRequests req maxA).getLast? = Option.some (req k))
  ∧ ((∀ j, j < maxA → (req j).code ≠ 200) →
      attemptRequests req maxA = (List.range maxA).map req ++ [exhaustedResponse maxA]
      ∧ (attemptRequests req maxA).length = maxA + 1
      ∧ (attemptRequests req maxA).getLast? = Option.some
          ⟨429, .str ("Http error: max attempts (" ++ toString maxA ++ ") exceeded."),
            ⟨.num 0, .num 0⟩⟩) := by
  constructor
  · intro hk hsucc hbefore
    have heq : attemptRequests req maxA = (List.range (k + 1)).map req := by
      have := attemptLoop_first_success req maxA maxA k 0 hk (by simpa using hsucc)
        (by intro j hj; simpa using hbefore j hj)
      simpa [attemptRequests] using this
    refine ⟨heq, ?_, ?_⟩
    · rw [heq, List.length_map, List.length_range, Nat.min_eq_left (Nat.succ_le_of_lt hk)]
    · rw [heq, List.range_succ]
      simp
  · intro hfail
    have heq : attemptRequests req maxA =
        (List.range maxA).map req ++ [exhaustedResponse maxA] := by
      have := attemptLoop_all_fail req maxA maxA 0 (by intro j hj; simpa using hfail j hj)
      simpa [attemptRequests] using this
    refine ⟨heq, ?_, ?_⟩
    · rw [heq]; simp
    · rw [heq]; simp [exhaustedResponse]

/-- Witness for C5: the spec's two scenarios — responses `[429, 200]` with
budget 3 give the two results ending in the 200; responses `[425, 502]`
with budget 2 give three results ending in the synthetic 429 sentinel
whose text states the budget. -/
theorem C5_attempt_requests_witness :
    (attemptRequests (fun i => if i = 0 then ⟨429, .str "rate limit", ⟨.num 0, .num 0⟩⟩
        else ⟨200, .str "success", ⟨.num 10, .num 20⟩⟩) 3 =
      (List.range 2).map (fun i => if i = 0 then ⟨429, .str "rate limit", ⟨.num 0, .num 0⟩⟩
        else ⟨200, .str "success", ⟨.num 10, .num 20⟩⟩)
      ∧ (attemptRequests (fun i => if i = 0 then ⟨429, .str "rate limit", ⟨.num 0, .num 0⟩⟩
          else ⟨200, .str "success", ⟨.num 10, .num 20⟩⟩) 3).length = min 2 3
      ∧ (attemptRequests (fun i => if i = 0 then ⟨429, .str "rate limit", ⟨.num 0, .num 0⟩⟩
          else ⟨200, .str "success", ⟨.num 10, .num 20⟩⟩) 3).getLast? =
        Option.some ⟨200, .str "success", ⟨.num 10, .num 20⟩⟩)
  ∧ (attemptRequests (fun i => if i = 0 then ⟨425, .str "error1", ⟨.num 0, .num 0⟩⟩
        else ⟨502, .str "error2", ⟨.num 0, .num 0⟩⟩) 2 =
      (List.range 2).map (fun i => if i = 0 then ⟨425, .str "error1", ⟨.num 0, .num 0⟩⟩
        else ⟨502, .str "error2", ⟨.num 0, .num 0⟩⟩) ++ [exhaustedResponse 2]
      ∧ (attemptRequests (fun i => if i = 0 then ⟨425, .str "error1", ⟨.num 0, .num 0⟩⟩
          else ⟨502, .str "error2", ⟨.num 0, .num 0⟩⟩) 2).length = 2 + 1
      ∧ (attemptRequests (fun i => if i = 0 then ⟨425, .str "error1", ⟨.num 0, .num 0⟩⟩
          else ⟨502, .str "error2", ⟨.num 0, .num 0⟩⟩) 2).getLast? =
        Option.some ⟨429, .str ("Http error: max attempts (" ++ toString 2 ++ ") exceeded."),
          ⟨.num 0, .num 0⟩⟩) := by
  constructor
  · exact (C5_attempt_requests _ 3 1).1 (by decide) (by decide) (by decide)
  · exact (C5_attempt_requests _ 2 0).2 (by decide)

/-- Claim C8 (confirmed): adding a system turn when a system turn sits at
index 0 replaces that turn's text in place, leaving every other stored
turn's position and content unchanged; when no system turn sits at index 0
(empty store or non-system head) the new system turn is inserted at index
0 with the existing turns shifted intact; user and model turns are
appended. -/
theorem C8_add_prompt (rest ps : List LlmTurn) (xs newt : List String) (t : LlmTurn) :
    (addPrompt (⟨.system, xs⟩ :: rest) ⟨.system, newt⟩ = ⟨.system, newt⟩ :: rest)
  ∧ (addPrompt [] ⟨.system, newt⟩ = [⟨.system, newt⟩])
  ∧ (∀ u rest', u.role ≠ .system →
      addPrompt (u :: rest') ⟨.system, newt⟩ = ⟨.system, newt⟩ :: u :: rest')
  ∧ (t.role = .user ∨ t.role = .model → addPrompt ps t = ps ++ [t]) := by
  refine ⟨by simp [addPrompt], by simp [addPrompt], ?_, ?_⟩
  · intro u rest' hu
    simp [addPrompt, hu]
  · intro ht
    rcases ht with h | h <;> simp [addPrompt, h]

/-- Witness for C8: the `test_set_system_prompt` scenario — replacing the
system turn at index 0 keeps the user turn in place, inserting in front of
a user head shifts it intact, and a user turn is appended. -/
theorem C8_add_prompt_witness :
    (addPrompt [⟨.system, ["system1"]⟩, ⟨.user, ["user1"]⟩] ⟨.system, ["system2"]⟩ =
      [⟨.system, ["system2"]⟩, ⟨.user, ["user1"]⟩])
  ∧ (addPrompt [⟨.user, ["user1"]⟩] ⟨.system, ["system2"]⟩ =
      [⟨.system, ["system2"]⟩, ⟨.user, ["user1"]⟩])
  ∧ (addPrompt [⟨.system, ["system2"]⟩] ⟨.user, ["user1"]⟩ =
      [⟨.system, ["system2"]⟩] ++ [⟨.user, ["user1"]⟩]) :=
  ⟨(C8_add_prompt [⟨.user, ["user1"]⟩] [⟨.system, ["system2"]⟩] ["system1"] ["system2"]
      ⟨.user, ["user1"]⟩).1,
   (C8_add_prompt [⟨.user, ["user1"]⟩] [⟨.system, ["system2"]⟩] ["system1"] ["system2"]
      ⟨.user, ["user1"]⟩).2.2.1 ⟨.user, ["user1"]⟩ [] (by decide),
   (C8_add_prompt [⟨.user, ["user1"]⟩] [⟨.system, ["system2"]⟩] ["system1"] ["system2"]
      ⟨.user, ["user1"]⟩).2.2.2 (Or.inl rfl)⟩

theorem orZero_num (n : Int) : orZero (.num n) = .num n := by
  by_cases h : n = 0 <;> simp [orZero, truthy, h]

theorem orZero_nil : orZero .nil = .num 0 := rfl

theorem strFoldl_append (l : List String) :
    ∀ a b : String,
      l.foldl (fun x y => x ++ y) (a ++ b) = a ++ l.foldl (fun x y => x ++ y) b := by
  induction l with
  | nil => intro a b; rfl
  | cons t ts ih =>
    intro a b
    simp only [List.foldl_cons, String.append_assoc]
    exact ih a (b ++ t)

theorem oaiCollectFrags_strs (texts : List String) :
    ∀ acc : String,
      oaiCollectFrags (.str acc) (texts.map (fun t => .obj [("text", .str t)])) =
        .ok (.str (texts.foldl (fun a b => a ++ b) acc)) := by
  induction texts with
  | nil => intro acc; rfl
  | cons t ts ih =>
    intro acc
    simp [oaiCollectFrags, pyGetD, lookupKey, pyAdd, intCoe, bind, Except.bind, ih]

theorem oaiCollect_schema (entries : List OaiOutEntry) :
    entries.all oaiOutEntrySkipOk = true →
    ∀ acc : String,
      oaiCollect (.str acc) (entries.map oaiOutEntryVal) =
        .ok (.str (acc ++ oaiExpectedText entries)) := by
  induction entries with
  | nil => intro _ acc; simp [oaiCollect, oaiExpectedText]
  | cons e rest ih =>
    intro hok acc
    rw [List.all_cons, Bool.and_eq_true] at hok
    obtain ⟨he, hrest⟩ := hok
    cases e with
    | message texts =>
        have hfr := oaiCollectFrags_strs texts acc
        have hacc : texts.foldl (fun a b => a ++ b) acc =
            acc ++ texts.foldl (fun a b => a ++ b) "" := by
          simpa using strFoldl_append texts acc ""
        simp [oaiCollect, oaiOutEntryVal, pyGet1, pyGetD, lookupKey, bind,
          Except.bind, hfr, hacc, ih hrest, oaiExpectedText, String.append_assoc]
    | other kind krest =>
        have hk : ¬ (PyVal.str kind = PyVal.str "message") := by
          intro hh
          cases hh
          simp [oaiOutEntrySkipOk] at he
        simp [oaiCollect, oaiOutEntryVal, pyGet1, pyGetD, lookupKey, bind,
          Except.bind, hk, ih hrest, oaiExpectedText]

/-- Claim C7 (confirmed): for every success body of the vendor's
documented schema, a 200 reply yields exactly the expected
`(text, promptTokens, generatedTokens)` triple, any missing token field
defaulting to zero, and for Google the reported thinking-token count
added to the generated count; for OpenAI the output list may mix message
entries with entries of other kinds: only the message entries contribute,
their fragments concatenated in list order. -/
theorem C7_success_round_trip (raw t : String) (entries : List OaiOutEntry)
    (p g c th p' g' : Option Int) :
    anthropicRequest (.reply ⟨200, raw, Option.some (anthSuccessBody t p g)⟩) =
      .ok ⟨200, .str t, ⟨.num (p.getD 0), .num (g.getD 0)⟩⟩
  ∧ googleRequest (.reply ⟨200, raw, Option.some (googSuccessBody t p c th)⟩) =
      .ok ⟨200, .str t, ⟨.num (p.getD 0), .num (c.getD 0 + th.getD 0)⟩⟩
  ∧ (entries.all oaiOutEntrySkipOk = true →
      openaiRequest (.reply ⟨200, raw, Option.some (oaiSuccessBody entries p' g')⟩) =
        .ok ⟨200, .str (oaiExpectedText entries),
          ⟨.num (p'.getD 0), .num (g'.getD 0)⟩⟩) := by
  refine ⟨?_, ?_, ?_⟩
  · rcases p with _ | n <;> rcases g with _ | m <;>
      simp [anthropicRequest, anthSuccessBody, optNum, pyGetD, pyGet1, pyIndex,
        lookupKey, toHTTPStatus, validHTTPStatus, orZero_num, orZero_nil,
        bind, Except.bind]
  · rcases p with _ | n <;> rcases c with _ | m <;> rcases th with _ | o <;>
      simp [googleRequest, googSuccessBody, optNum, pyGetD, pyGet1, pyIndex,
        lookupKey, toHTTPStatus, validHTTPStatus, orZero_num, orZero_nil,
        pyAdd, intCoe, bind, Except.bind]
  · intro hok
    have hcol : oaiCollect (.str "") (entries.map oaiOutEntryVal) =
        .ok (.str (oaiExpectedText entries)) := by
      simpa using oaiCollect_schema entries hok ""
    rcases p' with _ | n <;> rcases g' with _ | m <;>
      simp [openaiRequest, oaiSuccessBody, optNum, pyGetD, pyGet1,
        lookupKey, toHTTPStatus, validHTTPStatus, orZero_num, orZero_nil,
        hcol, bind, Except.bind]

/-- Witness for C7: the mixed-kind body of
`test_llm_openai.py::test_request` — message `"part1"`, a `"something"`
entry, message `"part2"`, usage 10/20 — yields text `"part1part2"` with
tokens 10 and 20. -/
theorem C7_success_round_trip_witness :
    oaiExpectedText [.message ["part1"],
      .other "something" [("content", .arr [.obj [("text", .str "nope")]])],
      .message ["part2"]] = "part1part2"
  ∧ openaiRequest (.reply ⟨200, "raw", Option.some (oaiSuccessBody
        [.message ["part1"],
         .other "something" [("content", .arr [.obj [("text", .str "nope")]])],
         .message ["part2"]]
        (Option.some 10) (Option.some 20))⟩) =
      .ok ⟨200, .str (oaiExpectedText [.message ["part1"],
          .other "something" [("content", .arr [.obj [("text", .str "nope")]])],
          .message ["part2"]]),
        ⟨.num ((Option.some (10 : Int)).getD 0), .num ((Option.some (20 : Int)).getD 0)⟩⟩ :=
  ⟨by decide,
   (C7_success_round_trip "raw" "t"
      [.message ["part1"],
       .other "something" [("content", .arr [.obj [("text", .str "nope")]])],
       .message ["part2"]]
      Option.none Option.none Option.none Option.none
      (Option.some 10) (Option.some 20)).2.2 (by decide)⟩

/-- Claim C9 (confirmed): on a 200 reply the Anthropic normalizer returns
only the text of the first content block and the Google normalizer only
the text of the first part of the first candidate — whatever further
blocks, parts or candidates follow is ignored rather than concatenated
(the returned text does not depend on them). -/
theorem C9_first_block_only (raw t : String) (restBlocks restParts restCands : List PyVal) :
    anthropicRequest (.reply ⟨200, raw, Option.some
        (.obj [("content", .arr (.obj [("text", .str t)] :: restBlocks))])⟩) =
      .ok ⟨200, .str t, ⟨.num 0, .num 0⟩⟩
  ∧ googleRequest (.reply ⟨200, raw, Option.some
        (.obj [("candidates", .arr (.obj [("content", .obj [("parts",
          .arr (.obj [("text", .str t)] :: restParts))])] :: restCands))])⟩) =
      .ok ⟨200, .str t, ⟨.num 0, .num 0⟩⟩ := by
  constructor
  · simp [anthropicRequest, pyGetD, pyGet1, pyIndex, lookupKey, toHTTPStatus,
      validHTTPStatus, orZero_nil, bind, Except.bind]
  · simp [googleRequest, pyGetD, pyGet1, pyIndex, lookupKey, toHTTPStatus,
      validHTTPStatus, orZero_nil, pyAdd, intCoe, bind, Except.bind]

theorem wellFormedResp_mk (c : Nat) (s : String) (a b : Int)
    (hc : validHTTPStatus c = true) :
    wellFormedResp ⟨c, .str s, ⟨.num a, .num b⟩⟩ = true := by
  simp [wellFormedResp, isStr, isNum, hc]

theorem valid200 : validHTTPStatus 200 = true := by decide

theorem valid400 : validHTTPStatus 400 = true := by decide

theorem anth_text_eval (o : Option PyVal) (h : anthContentOk o = true) :
    ∃ first, pyIndex (o.getD (.arr [.obj []])) 0 = .ok first ∧
      pyGetD first "text" (.str "") = .ok (.str (anthTextOf o)) := by
  rcases o with _ | v
  · exact ⟨.obj [], rfl, rfl⟩
  · rcases v with _ | b | n | s | xs | kvs <;> simp [anthContentOk] at h
    rcases xs with _ | ⟨x, tail⟩
    · simp [anthContentOk] at h
    · rcases x with _ | b | n | s | ys | fkvs <;> simp [anthContentOk] at h
      refine ⟨.obj fkvs, rfl, ?_⟩
      rcases ht : lookupKey fkvs "text" with _ | w
      · simp [pyGetD, anthTextOf, ht]
      · rcases w with _ | b | n | s | ys | zs <;> simp [strOrAbsent, ht] at h <;>
          simp [pyGetD, anthTextOf, ht]

theorem usage_token_eval (u : Option PyVal) (k : String)
    (hs : usageShape u = true) (hf : usageField u k = true) :
    ∃ v, pyGet1 (u.getD (.obj [])) k = .ok v ∧ orZero v = .num (tokOf u k) := by
  rcases u with _ | v
  · exact ⟨.nil, rfl, rfl⟩
  · rcases v with _ | b | n | s | xs | ukvs <;> simp [usageShape] at hs
    refine ⟨(lookupKey ukvs k).getD .nil, by simp [pyGet1, pyGetD], ?_⟩
    rcases hk : lookupKey ukvs k with _ | w
    · simp [tokOf, hk, orZero_nil]
    · rcases w with _ | b | n | s | ys | zs <;>
        simp [usageField, numOrAbsent, hk] at hf <;>
        simp [tokOf, hk, orZero_num]

theorem plainResponse_eval (c : Nat) (txt : String) (hc : validHTTPStatus c = true) :
    plainResponse c txt = .ok ⟨c, .str txt, ⟨.num 0, .num 0⟩⟩ := by
  simp [plainResponse, toHTTPStatus, hc, bind, Except.bind]

theorem anthropicRequest_200_eval (raw : String) (kvs : List (String × PyVal))
    (h : anthConforms (.obj kvs) = true) :
    anthropicRequest (.reply ⟨200, raw, Option.some (.obj kvs)⟩) =
      .ok ⟨200, .str (anthTextOf (lookupKey kvs "content")),
        ⟨.num (tokOf (lookupKey kvs "usage") "input_tokens"),
         .num (tokOf (lookupKey kvs "usage") "output_tokens")⟩⟩ := by
  simp only [anthConforms, usage2Ok, Bool.and_eq_true] at h
  obtain ⟨hcont, ⟨hs, hf1⟩, hf2⟩ := h
  obtain ⟨first, hfirst, htext⟩ := anth_text_eval _ hcont
  obtain ⟨vp, hvp, hop⟩ := usage_token_eval _ "input_tokens" hs hf1
  obtain ⟨vg, hvg, hog⟩ := usage_token_eval _ "output_tokens" hs hf2
  have hcget : pyGetD (PyVal.obj kvs) "content" (.arr [.obj []]) =
      .ok ((lookupKey kvs "content").getD (.arr [.obj []])) := rfl
  have huget : pyGetD (PyVal.obj kvs) "usage" (.obj []) =
      .ok ((lookupKey kvs "usage").getD (.obj [])) := rfl
  simp [anthropicRequest, bind, Except.bind, hcget, huget, hfirst, htext, hvp, hvg,
    hop, hog, toHTTPStatus, valid200]

theorem anthropicRequest_wf (o : HttpOutcome) (h : anthValidOutcome o = true) :
    ∃ r, anthropicRequest o = .ok r ∧ wellFormedResp r = true := by
  cases o with
  | reply r =>
      obtain ⟨code, text, jl⟩ := r
      simp only [anthValidOutcome, Bool.and_eq_true] at h
      obtain ⟨hc, hbody⟩ := h
      by_cases h200 : code = 200
      · subst h200
        rcases jl with _ | j
        · simp at hbody
        · have hconf : anthConforms j = true := by
            have hb := hbody
            rwa [if_pos rfl] at hb
          rcases j with _ | b | n | s | xs | kvs <;>
            first
              | exact ⟨_, anthropicRequest_200_eval text kvs hconf,
                  wellFormedResp_mk 200 _ _ _ valid200⟩
              | simp [anthConforms] at hconf
      · refine ⟨⟨code, .str text, ⟨.num 0, .num 0⟩⟩, ?_, wellFormedResp_mk code text 0 0 hc⟩
        simp [anthropicRequest, h200, plainResponse_eval code text hc]
  | exc desc resp =>
      rcases resp with _ | er
      · refine ⟨⟨400, .str ("Request failed: " ++ desc), ⟨.num 0, .num 0⟩⟩, ?_,
          wellFormedResp_mk 400 ("Request failed: " ++ desc) 0 0 valid400⟩
        simp [anthropicRequest, plainResponse_eval 400 _ valid400]
      · have hc : validHTTPStatus er.status_code = true := by
          simpa [anthValidOutcome] using h
        refine ⟨⟨er.status_code, .str er.text, ⟨.num 0, .num 0⟩⟩, ?_,
          wellFormedResp_mk er.status_code er.text 0 0 hc⟩
        simp [anthropicRequest, plainResponse_eval er.status_code er.text hc]

theorem goog_text_eval (o : Option PyVal) (h : googCandsOk o = true) :
    ∃ c0 inner parts p0,
      pyIndex (o.getD (.arr [.obj []])) 0 = .ok c0 ∧
      pyGetD c0 "content" (.obj []) = .ok inner ∧
      pyGetD inner "parts" (.arr [.obj []]) = .ok parts ∧
      pyIndex parts 0 = .ok p0 ∧
      pyGetD p0 "text" (.str "") = .ok (.str (googTextOf o)) := by
  rcases o with _ | v
  · exact ⟨.obj [], .obj [], .arr [.obj []], .obj [], rfl, rfl, rfl, rfl, rfl⟩
  rcases v with _ | b | n | s | xs | kvs
  · simp [googCandsOk] at h
  · simp [googCandsOk] at h
  · simp [googCandsOk] at h
  · simp [googCandsOk] at h
  · rcases xs with _ | ⟨x, tail⟩
    · simp [googCandsOk] at h
    rcases x with _ | b | n | s | ys | ckvs
    · simp [googCandsOk] at h
    · simp [googCandsOk] at h
    · simp [googCandsOk] at h
    · simp [googCandsOk] at h
    · simp [googCandsOk] at h
    have h1 : googCandContentOk (lookupKey ckvs "content") = true := by
      simpa [googCandsOk] using h
    refine ⟨.obj ckvs, ?_⟩
    rcases hcin : lookupKey ckvs "content" with _ | w
    · exact ⟨.obj [], .arr [.obj []], .obj [], by simp [pyIndex],
        by simp [pyGetD, hcin], rfl, rfl,
        by simp [pyGetD, lookupKey, googTextOf, hcin]⟩
    rw [hcin] at h1
    rcases w with _ | b | n | s | zs | ikvs
    · simp [googCandContentOk] at h1
    · simp [googCandContentOk] at h1
    · simp [googCandContentOk] at h1
    · simp [googCandContentOk] at h1
    · simp [googCandContentOk] at h1
    have h2 : googPartsOk (lookupKey ikvs "parts") = true := by
      simpa [googCandContentOk] using h1
    refine ⟨.obj ikvs, ?_⟩
    rcases hpin : lookupKey ikvs "parts" with _ | x'
    · exact ⟨.arr [.obj []], .obj [], by simp [pyIndex], by simp [pyGetD, hcin],
        by simp [pyGetD, hpin], rfl,
        by simp [pyGetD, lookupKey, googTextOf, hcin, hpin]⟩
    rw [hpin] at h2
    rcases x' with _ | b | n | s | ps | zkvs
    · simp [googPartsOk] at h2
    · simp [googPartsOk] at h2
    · simp [googPartsOk] at h2
    · simp [googPartsOk] at h2
    case obj => simp [googPartsOk] at h2
    rcases ps with _ | ⟨p, ptail⟩
    · simp [googPartsOk] at h2
    rcases p with _ | b | n | s | qs | pkvs
    · simp [googPartsOk] at h2
    · simp [googPartsOk] at h2
    · simp [googPartsOk] at h2
    · simp [googPartsOk] at h2
    · simp [googPartsOk] at h2
    have h3 : strOrAbsent (lookupKey pkvs "text") = true := by
      simpa [googPartsOk] using h2
    refine ⟨.arr (.obj pkvs :: ptail), .obj pkvs, by simp [pyIndex],
      by simp [pyGetD, hcin], by simp [pyGetD, hpin], by simp [pyIndex], ?_⟩
    rcases htx : lookupKey pkvs "text" with _ | w'
    · simp [pyGetD, googTextOf, hcin, hpin, htx]
    rw [htx] at h3
    rcases w' with _ | b | n | s' | qs | wkvs
    · simp [strOrAbsent] at h3
    · simp [strOrAbsent] at h3
    · simp [strOrAbsent] at h3
    · simp [pyGetD, googTextOf, hcin, hpin, htx]
    · simp [strOrAbsent] at h3
    · simp [strOrAbsent] at h3
  · simp [googCandsOk] at h

theorem googleRequest_200_eval (raw : String) (kvs : List (String × PyVal))
    (h : googConforms (.obj kvs) = true) :
    googleRequest (.reply ⟨200, raw, Option.some (.obj kvs)⟩) =
      .ok ⟨200, .str (googTextOf (lookupKey kvs "candidates")),
        ⟨.num (tokOf (lookupKey kvs "usageMetadata") "promptTokenCount"),
         .num (tokOf (lookupKey kvs "usageMetadata") "candidatesTokenCount" +
           tokOf (lookupKey kvs "usageMetadata") "thoughtsTokenCount")⟩⟩ := by
  simp only [googConforms, usage3Ok, Bool.and_eq_true] at h
  obtain ⟨hcands, ⟨⟨hs, hf1⟩, hf2⟩, hf3⟩ := h
  obtain ⟨c0, inner, parts, p0, hc0, hinner, hparts, hp0, htext⟩ :=
    goog_text_eval _ hcands
  obtain ⟨vp, hvp, hop⟩ := usage_token_eval _ "promptTokenCount" hs hf1
  obtain ⟨vc, hvc, hoc⟩ := usage_token_eval _ "candidatesTokenCount" hs hf2
  obtain ⟨vt, hvt, hot⟩ := usage_token_eval _ "thoughtsTokenCount" hs hf3
  have hcget : pyGetD (PyVal.obj kvs) "candidates" (.arr [.obj []]) =
      .ok ((lookupKey kvs "candidates").getD (.arr [.obj []])) := rfl
  have huget : pyGetD (PyVal.obj kvs) "usageMetadata" (.obj []) =
      .ok ((lookupKey kvs "usageMetadata").getD (.obj [])) := rfl
  simp [googleRequest, bind, Except.bind, hcget, huget, hc0, hinner, hparts, hp0,
    htext, hvp, hvc, hvt, hop, hoc, hot, pyAdd, intCoe, toHTTPStatus, valid200]

theorem googleRequest_wf (o : HttpOutcome) (h : googValidOutcome o = true) :
    ∃ r, googleRequest o = .ok r ∧ wellFormedResp r = true := by
  cases o with
  | reply r =>
      obtain ⟨code, text, jl⟩ := r
      simp only [googValidOutcome, Bool.and_eq_true] at h
      obtain ⟨hc, hbody⟩ := h
      by_cases h200 : code = 200
      · subst h200
        rcases jl with _ | j
        · simp at hbody
        · have hconf : googConforms j = true := by
            have hb := hbody
            rwa [if_pos rfl] at hb
          rcases j with _ | b | n | s | xs | kvs <;>
            first
              | exact ⟨_, googleRequest_200_eval text kvs hconf,
                  wellFormedResp_mk 200 _ _ _ valid200⟩
              | simp [googConforms] at hconf
      · refine ⟨⟨code, .str text, ⟨.num 0, .num 0⟩⟩, ?_, wellFormedResp_mk code text 0 0 hc⟩
        simp [googleRequest, h200, plainResponse_eval code text hc]
  | exc desc resp =>
      rcases resp with _ | er
      · refine ⟨⟨400, .str ("Request failed: " ++ desc), ⟨.num 0, .num 0⟩⟩, ?_,
          wellFormedResp_mk 400 ("Request failed: " ++ desc) 0 0 valid400⟩
        simp [googleRequest, plainResponse_eval 400 _ valid400]
      · have hc : validHTTPStatus er.status_code = true := by
          simpa [googValidOutcome] using h
        refine ⟨⟨er.status_code, .str er.text, ⟨.num 0, .num 0⟩⟩, ?_,
          wellFormedResp_mk er.status_code er.text 0 0 hc⟩
        simp [googleRequest, plainResponse_eval er.status_code er.text hc]

theorem oaiCollectFrags_ok (fs : List PyVal) (hfs : fs.all oaiFragOk = true) :
    ∀ acc : String, ∃ s : String, oaiCollectFrags (.str acc) fs = .ok (.str s) := by
  induction fs with
  | nil => intro acc; exact ⟨acc, rfl⟩
  | cons f fs ih =>
    intro acc
    rw [List.all_cons, Bool.and_eq_true] at hfs
    obtain ⟨hf, hfs'⟩ := hfs
    rcases f with _ | b | n | s | xs | fkvs <;> simp [oaiFragOk] at hf
    rcases htx : lookupKey fkvs "text" with _ | w
    · obtain ⟨s, hs⟩ := ih hfs' acc
      exact ⟨s, by simp [oaiCollectFrags, pyGetD, htx, pyAdd, intCoe, bind,
        Except.bind, hs]⟩
    · rw [htx] at hf
      rcases w with _ | b | n | s' | xs | zs <;> simp [strOrAbsent] at hf
      obtain ⟨s, hs⟩ := ih hfs' (acc ++ s')
      exact ⟨s, by simp [oaiCollectFrags, pyGetD, htx, pyAdd, intCoe, bind,
        Except.bind, hs]⟩

theorem oaiCollect_ok (es : List PyVal) (hes : es.all oaiEntryOk = true) :
    ∀ acc : String, ∃ s : String, oaiCollect (.str acc) es = .ok (.str s) := by
  induction es with
  | nil => intro acc; exact ⟨acc, rfl⟩
  | cons e es ih =>
    intro acc
    rw [List.all_cons, Bool.and_eq_true] at hes
    obtain ⟨he, hes'⟩ := hes
    rcases e with _ | b | n | s | xs | ekvs
    · simp [oaiEntryOk] at he
    · simp [oaiEntryOk] at he
    · simp [oaiEntryOk] at he
    · simp [oaiEntryOk] at he
    · simp [oaiEntryOk] at he
    simp only [oaiEntryOk] at he
    by_cases hmsg : (lookupKey ekvs "type").getD .nil = .str "message"
    · rw [if_pos hmsg] at he
      rcases hcin : lookupKey ekvs "content" with _ | w
      · obtain ⟨s', hs'⟩ := ih hes' acc
        refine ⟨s', ?_⟩
        simp [oaiCollect, pyGet1, pyGetD, bind, Except.bind, hmsg, hcin,
          oaiCollectFrags, hs']
      · rw [hcin] at he
        rcases w with _ | b | n | s | fs | zs
        · simp at he
        · simp at he
        · simp at he
        · simp at he
        · obtain ⟨s, hs⟩ := oaiCollectFrags_ok fs he acc
          obtain ⟨s', hs'⟩ := ih hes' s
          refine ⟨s', ?_⟩
          simp [oaiCollect, pyGet1, pyGetD, bind, Except.bind, hmsg, hcin, hs, hs']
        · simp at he
    · obtain ⟨s', hs'⟩ := ih hes' acc
      refine ⟨s', ?_⟩
      simp [oaiCollect, pyGet1, pyGetD, bind, Except.bind, hmsg, hs']

theorem openaiRequest_200_wf (raw : String) (kvs : List (String × PyVal))
    (h : oaiConforms (.obj kvs) = true) :
    ∃ r, openaiRequest (.reply ⟨200, raw, Option.some (.obj kvs)⟩) = .ok r ∧
      wellFormedResp r = true := by
  simp only [oaiConforms, usage2Ok, Bool.and_eq_true] at h
  obtain ⟨hout, ⟨hs, hf1⟩, hf2⟩ := h
  obtain ⟨vp, hvp, hop⟩ := usage_token_eval _ "input_tokens" hs hf1
  obtain ⟨vg, hvg, hog⟩ := usage_token_eval _ "output_tokens" hs hf2
  have hoget : pyGetD (PyVal.obj kvs) "output" (.arr []) =
      .ok ((lookupKey kvs "output").getD (.arr [])) := rfl
  have huget : pyGetD (PyVal.obj kvs) "usage" (.obj []) =
      .ok ((lookupKey kvs "usage").getD (.obj [])) := rfl
  rcases ho : lookupKey kvs "output" with _ | w
  · obtain ⟨s, hs'⟩ := oaiCollect_ok [] (by simp) ""
    refine ⟨⟨200, .str s, ⟨.num (tokOf (lookupKey kvs "usage") "input_tokens"),
      .num (tokOf (lookupKey kvs "usage") "output_tokens")⟩⟩, ?_,
      wellFormedResp_mk 200 _ _ _ valid200⟩
    simp [openaiRequest, bind, Except.bind, hoget, huget, ho, hs', hvp, hvg,
      hop, hog, toHTTPStatus, valid200]
  · rw [ho] at hout
    rcases w with _ | b | n | s | es | zs
    · simp [oaiOutputOk] at hout
    · simp [oaiOutputOk] at hout
    · simp [oaiOutputOk] at hout
    · simp [oaiOutputOk] at hout
    · obtain ⟨s, hs'⟩ := oaiCollect_ok es hout ""
      refine ⟨⟨200, .str s, ⟨.num (tokOf (lookupKey kvs "usage") "input_tokens"),
        .num (tokOf (lookupKey kvs "usage") "output_tokens")⟩⟩, ?_,
        wellFormedResp_mk 200 _ _ _ valid200⟩
      simp [openaiRequest, bind, Except.bind, hoget, huget, ho, hs', hvp, hvg,
        hop, hog, toHTTPStatus, valid200]
    · simp [oaiOutputOk] at hout

theorem openaiRequest_wf (o : HttpOutcome) (h : oaiValidOutcome o = true) :
    ∃ r, openaiRequest o = .ok r ∧ wellFormedResp r = true := by
  cases o with
  | reply r =>
      obtain ⟨code, text, jl⟩ := r
      simp only [oaiValidOutcome, Bool.and_eq_true] at h
      obtain ⟨hc, hbody⟩ := h
      by_cases h200 : code = 200
      · subst h200
        rcases jl with _ | j
        · simp at hbody
        · have hconf : oaiConforms j = true := by
            have hb := hbody
            rwa [if_pos rfl] at hb
          rcases j with _ | b | n | s | xs | kvs <;>
            first
              | exact openaiRequest_200_wf text kvs hconf
              | simp [oaiConforms] at hconf
      · refine ⟨⟨code, .str text, ⟨.num 0, .num 0⟩⟩, ?_, wellFormedResp_mk code text 0 0 hc⟩
        simp [openaiRequest, h200, plainResponse_eval code text hc]
  | exc desc resp =>
      rcases resp with _ | er
      · refine ⟨⟨400, .str ("Request failed: " ++ desc), ⟨.num 0, .num 0⟩⟩, ?_,
          wellFormedResp_mk 400 ("Request failed: " ++ desc) 0 0 valid400⟩
        simp [openaiRequest, plainResponse_eval 400 _ valid400]
      · have hc : validHTTPStatus er.status_code = true := by
          simpa [oaiValidOutcome] using h
        refine ⟨⟨er.status_code, .str er.text, ⟨.num 0, .num 0⟩⟩, ?_,
          wellFormedResp_mk er.status_code er.text 0 0 hc⟩
        simp [openaiRequest, plainResponse_eval er.status_code er.text hc]

/-- Claim C3 (counterexample): a 200 reply whose body text is not valid
JSON makes the Anthropic request raise (`json.loads` throws
`JSONDecodeError`, which the `except RequestException` handler does not
catch), so the single-request operation does not return a unified result
on every outcome of the HTTP call. -/
theorem C3_counterexample :
    anthropicRequest (.reply ⟨200, "not json", Option.none⟩) =
      .error .jsonDecodeErr := rfl

/-- Claim C3 (amended): for every vendor client, the single-request
operation returns a well-formed unified result (status in the HTTP
enumeration, string text, integer token counts) on every outcome of the
HTTP call in which all involved status codes are members of the HTTP
status enumeration and a 200 reply's body parses to a JSON value of the
vendor's success shape.  Outside those outcomes the operation is not
covered here: it may raise an uncaught Python exception (a 200 body that
is not valid JSON does) or return normally with an ill-formed result
(a parseable body with a wrong-typed leaf field can). -/
theorem C3_wellformed_on_valid_outcomes (o₁ o₂ o₃ : HttpOutcome)
    (h₁ : anthValidOutcome o₁ = true) (h₂ : googValidOutcome o₂ = true)
    (h₃ : oaiValidOutcome o₃ = true) :
    (∃ r, anthropicRequest o₁ = .ok r ∧ wellFormedResp r = true)
  ∧ (∃ r, googleRequest o₂ = .ok r ∧ wellFormedResp r = true)
  ∧ (∃ r, openaiRequest o₃ = .ok r ∧ wellFormedResp r = true) :=
  ⟨anthropicRequest_wf o₁ h₁, googleRequest_wf o₂ h₂, openaiRequest_wf o₃ h₃⟩

/-- Witness for C3: a conforming 200 reply for Anthropic, a bare transport
exception for Google, and a non-200 reply for OpenAI all yield well-formed
results. -/
theorem C3_wellformed_witness :
    (∃ r, anthropicRequest (.reply ⟨200, "raw",
        Option.some (anthSuccessBody "hi" (Option.some 10) Option.none)⟩) =
      .ok r ∧ wellFormedResp r = true)
  ∧ (∃ r, googleRequest (.exc "Connection error" Option.none) = .ok r ∧
      wellFormedResp r = true)
  ∧ (∃ r, openaiRequest (.reply ⟨429, "Rate limit exceeded", Option.none⟩) = .ok r ∧
      wellFormedResp r = true) :=
  C3_wellformed_on_valid_outcomes
    (.reply ⟨200, "raw", Option.some (anthSuccessBody "hi" (Option.some 10) Option.none)⟩)
    (.exc "Connection error" Option.none)
    (.reply ⟨429, "Rate limit exceeded", Option.none⟩)
    (by decide) (by decide) (by decide)

/-- Claim C6 (counterexample): a transport exception carrying an embedded
response whose status code is not a member of the HTTP status enumeration
(here 599) makes the request raise `ValueError` from `HTTPStatus(code)`
instead of returning a unified result with that status. -/
theorem C6_counterexample :
    anthropicRequest (.exc "Server error"
        (Option.some ⟨599, "oops", Option.none⟩)) = .error .valueErr := rfl

/-- Claim C6 (amended): for every vendor client, on a transport exception
without an embedded response the unified result has status 400 and a
synthesized message containing the exception's description; with an
embedded response whose status code is a member of the HTTP status
enumeration, the unified result adopts the embedded response's status and
body text (an embedded status outside the enumeration instead raises
`ValueError`). -/
theorem C6_exception_normalization (desc : String) (er : HttpReply)
    (hc : validHTTPStatus er.status_code = true) :
    (anthropicRequest (.exc desc Option.none) =
        .ok ⟨400, .str ("Request failed: " ++ desc), ⟨.num 0, .num 0⟩⟩
      ∧ googleRequest (.exc desc Option.none) =
        .ok ⟨400, .str ("Request failed: " ++ desc), ⟨.num 0, .num 0⟩⟩
      ∧ openaiRequest (.exc desc Option.none) =
        .ok ⟨400, .str ("Request failed: " ++ desc), ⟨.num 0, .num 0⟩⟩)
  ∧ (anthropicRequest (.exc desc (Option.some er)) =
        .ok ⟨er.status_code, .str er.text, ⟨.num 0, .num 0⟩⟩
      ∧ googleRequest (.exc desc (Option.some er)) =
        .ok ⟨er.status_code, .str er.text, ⟨.num 0, .num 0⟩⟩
      ∧ openaiRequest (.exc desc (Option.some er)) =
        .ok ⟨er.status_code, .str er.text, ⟨.num 0, .num 0⟩⟩) := by
  refine ⟨⟨?_, ?_, ?_⟩, ⟨?_, ?_, ?_⟩⟩ <;>
    simp [anthropicRequest, googleRequest, openaiRequest, plainResponse_eval,
      valid400, hc]

/-- Witness for C6: the test's exception pair — no embedded response gives
400 with the synthesized message; an embedded 404 `"not found"` response
is adopted verbatim. -/
theorem C6_exception_witness :
    (anthropicRequest (.exc "Connection error" Option.none) =
        .ok ⟨400, .str ("Request failed: " ++ "Connection error"), ⟨.num 0, .num 0⟩⟩
      ∧ googleRequest (.exc "Connection error" Option.none) =
        .ok ⟨400, .str ("Request failed: " ++ "Connection error"), ⟨.num 0, .num 0⟩⟩
      ∧ openaiRequest (.exc "Connection error" Option.none) =
        .ok ⟨400, .str ("Request failed: " ++ "Connection error"), ⟨.num 0, .num 0⟩⟩)
  ∧ (anthropicRequest (.exc "Connection error"
        (Option.some ⟨404, "not found", Option.none⟩)) =
        .ok ⟨HttpReply.status_code ⟨404, "not found", Option.none⟩,
          .str (HttpReply.text ⟨404, "not found", Option.none⟩), ⟨.num 0, .num 0⟩⟩
      ∧ googleRequest (.exc "Connection error"
        (Option.some ⟨404, "not found", Option.none⟩)) =
        .ok ⟨HttpReply.status_code ⟨404, "not found", Option.none⟩,
          .str (HttpReply.text ⟨404, "not found", Option.none⟩), ⟨.num 0, .num 0⟩⟩
      ∧ openaiRequest (.exc "Connection error"
        (Option.some ⟨404, "not found", Option.none⟩)) =
        .ok ⟨HttpReply.status_code ⟨404, "not found", Option.none⟩,
          .str (HttpReply.text ⟨404, "not found", Option.none⟩), ⟨.num 0, .num 0⟩⟩) :=
  C6_exception_normalization "Connection error" ⟨404, "not found", Option.none⟩ (by decide)
